import Mathlib

/-!
# Verification of the email-QA requirement extractor, email parser and rules engine

This file gives a shallow embedding, in Lean 4, of the core algorithms of the
repository (the universal document parser and email parser of
`automated_email_qa`, and the rules engine and link validator of `email_qa`),
and proves or refutes the specification claims about them.

Python `str` values are modelled as `List Char`.  Python library primitives
(`str.replace`, `str.strip`, `str.lower`, the `in` substring operator, …) are
given explicit executable Lean models, and each repository function is
translated branch by branch from its Python source.
-/

namespace EmailQA

/-- Python `str` is modelled as a list of Unicode characters. -/
abbrev Text := List Char

/-- Source `startsWith pat t`: `t` begins with `pat` (Python `str.startswith`). -/
def startsWith : Text → Text → Bool
  | [], _ => true
  | _ :: _, [] => false
  | p :: ps, c :: cs => p == c && startsWith ps cs

/-- Python substring test `pat in t`. -/
def occurs (pat : Text) : Text → Bool
  | [] => pat.isEmpty
  | c :: cs => startsWith pat (c :: cs) || occurs pat cs

/-- Fuel-driven worker for `pyReplace`: scans left to right, replacing each
non-overlapping occurrence of `pat`.  Each step consumes at least one input
character (for non-empty `pat`), so fuel `t.length` is always sufficient. -/
def pyReplaceFuel (pat rep : Text) : Nat → Text → Text
  | _, [] => []
  | 0, t => t
  | Nat.succ n, c :: cs =>
    if startsWith pat (c :: cs) then
      rep ++ pyReplaceFuel pat rep n (List.drop pat.length (c :: cs))
    else
      c :: pyReplaceFuel pat rep n cs

/-- Python `t.replace(pat, rep)` for non-empty `pat` (every pattern in this
development is non-empty; for empty `pat` we return `t` unchanged). -/
def pyReplace (pat rep t : Text) : Text :=
  if pat.isEmpty then t else pyReplaceFuel pat rep t.length t

/-- The `ENCODING_FIXES` table of
`automated_email_qa/tools/universal_parser.py` (class attribute of
`UniversalDocumentParser`), in its Python dict insertion order.  The keys are
written with explicit unicode escapes and match the source bytes codepoint for
codepoint. -/
def ENCODING_FIXES : List (Text × Text) := [
  ("\u00E2\u20AC\u2122".toList, "\u0027".toList),  -- Apostrophe
  ("\u00E2\u20AC\u0022".toList, "\u002D".toList),  -- Em dash
  ("\u00E2\u20AC\u0153".toList, "\u0022".toList),  -- Left double quote
  ("\u00E2\u20AC".toList, "\u0022".toList),  -- Right double quote
  ("\u00E2\u20AC\u00A6".toList, "\u002E\u002E\u002E".toList),  -- Ellipsis
  ("\u00E2\u20AC\u00A2".toList, "\u2022".toList),  -- Bullet
  ("\u00E2\u20AC\u02DC".toList, "\u0027".toList),  -- Left single quote
  ("\u00C3\u00A9".toList, "\u00E9".toList),  -- e acute
  ("\u00C3\u00A8".toList, "\u00E8".toList),  -- e grave
  ("\u00C3\u0020".toList, "\u00E0".toList),  -- a grave
  ("\u0026\u006E\u0062\u0073\u0070\u003B".toList, "\u0020".toList),  -- Non-breaking space
  ("\u0026\u0061\u006D\u0070\u003B".toList, "\u0026".toList),  -- Ampersand
  ("\u0026\u006C\u0074\u003B".toList, "\u003C".toList),  -- Less than
  ("\u0026\u0067\u0074\u003B".toList, "\u003E".toList),  -- Greater than
  ("\u0026\u0023\u0033\u0039\u003B".toList, "\u0027".toList),  -- Apostrophe (HTML entity)
  ("\u0026\u0071\u0075\u006F\u0074\u003B".toList, "\u0022".toList)  -- Quote (HTML entity)
]

/-- Source `UniversalDocumentParser._fix_encoding`: apply each table replacement in
order (the instance-level `encoding_issues_found` log does not affect the
returned text and is not modelled). -/
def fixEncoding (text : Text) : Text :=
  ENCODING_FIXES.foldl (fun t pr => pyReplace pr.1 pr.2 t) text

theorem pyReplaceFuel_of_not_occurs (pat rep : Text)
    (n : Nat) (t : Text) (h : occurs pat t = false) :
    pyReplaceFuel pat rep n t = t := by
  induction n generalizing t with
  | zero => cases t <;> rfl
  | succ n ih =>
    cases t with
    | nil => rfl
    | cons c cs =>
      rw [occurs, Bool.or_eq_false_iff] at h
      rw [pyReplaceFuel, if_neg (by simp [h.1]), ih cs h.2]

theorem pyReplace_of_not_occurs (pat rep t : Text)
    (h : occurs pat t = false) : pyReplace pat rep t = t := by
  unfold pyReplace
  split
  · rfl
  · exact pyReplaceFuel_of_not_occurs pat rep t.length t h

theorem fixEncoding_fold_of_not_occurs (l : List (Text × Text)) (t : Text)
    (h : ∀ pr ∈ l, occurs pr.1 t = false) :
    l.foldl (fun t pr => pyReplace pr.1 pr.2 t) t = t := by
  induction l with
  | nil => rfl
  | cons pr rest ih =>
    rw [List.foldl_cons,
        pyReplace_of_not_occurs pr.1 pr.2 t (h pr (List.mem_cons_self pr rest))]
    exact ih fun q hq => h q (List.mem_cons_of_mem pr hq)

/-- Claim C2 (amended): After one pass of the encoding normalizer, whenever no
replacement pattern of the table still matches the output, a second pass is
the identity: `fixEncoding (fixEncoding x) = fixEncoding x`.  (Unconditional
idempotence fails, see `C2_counterexample`.) -/
theorem C2_fixEncoding_fixedpoint (x : Text)
    (h : ∀ pr ∈ ENCODING_FIXES, occurs pr.1 (fixEncoding x) = false) :
    fixEncoding (fixEncoding x) = fixEncoding x :=
  fixEncoding_fold_of_not_occurs ENCODING_FIXES (fixEncoding x) h

/-- Witness for `C2_fixEncoding_fixedpoint` at the concrete input `"hello"`. -/
theorem C2_fixEncoding_fixedpoint_witness :
    ENCODING_FIXES.all (fun pr => !occurs pr.1 (fixEncoding "hello".toList)) = true ∧
      fixEncoding (fixEncoding "hello".toList) = fixEncoding "hello".toList :=
  ⟨by decide, C2_fixEncoding_fixedpoint "hello".toList (by decide)⟩

/-- Claim C2 (counterexample): The encoding normalizer is not idempotent: on
`"&amp;amp;"` the first pass rewrites the single occurrence of `"&amp;"` and
thereby produces a fresh `"&amp;"`, which a second pass rewrites again
(`"&amp;amp;" ↦ "&amp;" ↦ "&"`). -/
theorem C2_counterexample :
    fixEncoding (fixEncoding "&amp;amp;".toList) ≠ fixEncoding "&amp;amp;".toList := by
  decide

/-! ## Python string primitives used by the parsers -/

/-- The whitespace characters recognised by Python `str.strip`/`str.split`
and by the regex class `\s` (restricted to the ASCII range actually exercised
by the repository’s documents). -/
def isPySpace (c : Char) : Bool :=
  c == ' ' || c == '\t' || c == '\n' || c == '\r' || c == '\x0b' || c == '\x0c'

/-- Python `str.lower` (per-character case folding). -/
def pyLower (t : Text) : Text := t.map Char.toLower

/-- Python `str.upper` (per-character case folding). -/
def pyUpper (t : Text) : Text := t.map Char.toUpper

/-- Drop leading whitespace (left half of Python `str.strip`). -/
def stripLeft (t : Text) : Text := t.dropWhile isPySpace

/-- Drop trailing whitespace (right half of Python `str.strip`). -/
def stripRight : Text → Text
  | [] => []
  | c :: cs =>
    match stripRight cs with
    | [] => if isPySpace c then [] else [c]
    | r => c :: r

/-- Python `str.strip()` with no argument: remove whitespace at both ends. -/
def pyStrip (t : Text) : Text := stripRight (stripLeft t)

/-- Python `str.rstrip(chars)`: remove trailing characters drawn from `cs`. -/
def pyRstrip (cs : List Char) : Text → Text
  | [] => []
  | c :: rest =>
    match pyRstrip cs rest with
    | [] => if cs.contains c then [] else [c]
    | r => c :: r

/-- Python `str.split()` with no argument: split on whitespace runs,
discarding empty fields. -/
def pyWords : Text → List Text
  | [] => []
  | c :: cs =>
    if isPySpace c then pyWords cs
    else
      match pyWords cs with
      | [] => [[c]]
      | w :: ws =>
        match cs with
        | [] => [[c]]
        | d :: _ => if isPySpace d then [c] :: w :: ws else (c :: w) :: ws

/-- Python `content.split(sep)` for a single-character separator (used with
`’\n’`): empty fields are kept. -/
def pySplitChar (sep : Char) : Text → List Text
  | [] => [[]]
  | c :: cs =>
    if c == sep then [] :: pySplitChar sep cs
    else
      match pySplitChar sep cs with
      | [] => [[c]]
      | f :: fs => (c :: f) :: fs

/-- The characters after the first `’:’` — `line.split(’:’, 1)[1]`.  Only
evaluated under a guard that the line contains a colon. -/
def afterColon : Text → Text
  | [] => []
  | c :: cs => if c == ':' then cs else afterColon cs

/-- Python dict assignment `d[k] = v` on an association list: replace the
value of an existing key in place, otherwise append the binding. -/
def setAssoc {α : Type} (k : Text) (v : α) : List (Text × α) → List (Text × α)
  | [] => [(k, v)]
  | (k', v') :: rest =>
    if k' = k then (k, v) :: rest else (k', v') :: setAssoc k v rest

/-- In-place update of an existing key’s value (Python `d[k].field.append`). -/
def updateAssoc {α : Type} (k : Text) (f : α → α) : List (Text × α) → List (Text × α)
  | [] => []
  | (k', v') :: rest =>
    if k' = k then (k', f v') :: rest else (k', v') :: updateAssoc k f rest

/-! ## Regex models

The parsers use four fixed regular expressions.  Each is modelled by a
dedicated matcher implementing the backtracking behaviour of Python `re`
(leftmost match; greedy `\s*`; lazy `(.+?)`; `.` does not match a newline). -/

/-- Greedy `\s*`: consume the longest whitespace run for which the
continuation succeeds, backtracking character by character. -/
def wsStarGreedy {α : Type} (k : Text → Option α) : Text → Option α
  | [] => k []
  | c :: cs =>
    if isPySpace c then
      match wsStarGreedy k cs with
      | some r => some r
      | none => k (c :: cs)
    else k (c :: cs)

/-- Worker for lazy `(.+?)`: the group `acc` already holds at least one
character; try the continuation first and extend the group only on failure
(`.` never consumes a newline). -/
def lazyPlusAux {α : Type} (k : Text → Text → Option α) (acc : Text) : Text → Option α
  | [] => k acc []
  | c :: cs =>
    match k acc (c :: cs) with
    | some r => some r
    | none => if c == '\n' then none else lazyPlusAux k (acc ++ [c]) cs

/-- Lazy `(.+?)`: shortest group (of length at least one) for which the
continuation succeeds. -/
def lazyPlus {α : Type} (k : Text → Text → Option α) : Text → Option α
  | [] => none
  | c :: cs => if c == '\n' then none else lazyPlusAux k [c] cs

/-- Tail of `re.search(r’from:\s*(.+?)\s*<(.+?)>’, line, re.IGNORECASE)`:
match `\s*(.+?)\s*<(.+?)>` at the start of `t` (the text right after a
case-insensitive occurrence of `from:`), returning the two groups. -/
def matchFromAt (t : Text) : Option (Text × Text) :=
  wsStarGreedy (fun t1 =>
    lazyPlus (fun g1 t2 =>
      wsStarGreedy (fun t3 =>
        match t3 with
        | '<' :: t4 =>
          lazyPlus (fun g2 t5 =>
            match t5 with
            | '>' :: _ => some (g1, g2)
            | _ => none) t4
        | _ => none) t2) t1) t

/-- Source `re.search(r’from:\s*(.+?)\s*<(.+?)>’, line, re.IGNORECASE)`: try each
start position from the left; the pattern must begin with a case-insensitive
`from:` there. -/
def reFromSearch : Text → Option (Text × Text)
  | [] => none
  | c :: cs =>
    if startsWith "from:".toList (pyLower (c :: cs)) then
      match matchFromAt (List.drop 5 (c :: cs)) with
      | some g => some g
      | none => reFromSearch cs
    else reFromSearch cs

/-- Length of the literal scheme `https?://` at the head of `t` (the lone
optional quantifier `s?` needs no further backtracking because the following
literal `://` disambiguates). -/
def urlSchemeLen (t : Text) : Option Nat :=
  if startsWith "https://".toList t then some 8
  else if startsWith "http://".toList t then some 7
  else none

/-- Source `re.search(r’https?://[^\s]+’, t)`: the whole text of the leftmost match
(used for the CTA look-ahead line). -/
def searchUrl : Text → Option Text
  | [] => none
  | c :: cs =>
    match urlSchemeLen (c :: cs) with
    | some n =>
      let rest := List.drop n (c :: cs)
      let run := rest.takeWhile (fun d => !isPySpace d)
      if run.isEmpty then searchUrl cs else some (List.take n (c :: cs) ++ run)
    | none => searchUrl cs

/-- Character class `[^\s<>"]` of the URL-collection regex. -/
def urlChar (c : Char) : Bool :=
  !isPySpace c && c != '<' && c != '>' && c != '\x22'

/-- One attempted match of `https?://[^\s<>"]+` anchored at the head of `t`;
returns the matched text and the rest of the input after it. -/
def tryUrlAt (t : Text) : Option (Text × Text) :=
  match urlSchemeLen t with
  | some n =>
    let rest := List.drop n t
    let run := rest.takeWhile urlChar
    if run.isEmpty then none else some (List.take n t ++ run, rest.dropWhile urlChar)
  | none => none

/-- Fuel-driven worker for `re.findall(r’https?://[^\s<>"]+’, line)`:
non-overlapping matches, left to right.  Each step consumes at least one
character, so fuel `t.length` is always sufficient. -/
def findAllUrlsFuel : Nat → Text → List Text
  | _, [] => []
  | 0, _ => []
  | Nat.succ n, c :: cs =>
    match tryUrlAt (c :: cs) with
    | some (m, rest) => m :: findAllUrlsFuel n rest
    | none => findAllUrlsFuel n cs

/-- Source `re.findall(r’https?://[^\s<>"]+’, line)`. -/
def findAllUrls (t : Text) : List Text := findAllUrlsFuel t.length t

/-- Source `[A-Z]` of the CTA line pattern (ASCII uppercase only). -/
def isUpperAZ (c : Char) : Bool := 'A' ≤ c && c ≤ 'Z'

/-- Source `re.match(r’^[A-Z][A-Z\s]+[A-Z]$’, line_stripped)`: an uppercase letter,
then at least one uppercase letter or whitespace, ending with an uppercase
letter (so the line has length at least three). -/
def ctaPatternMatch : Text → Bool
  | [] => false
  | c :: rest =>
    isUpperAZ c && decide (2 ≤ rest.length) &&
      rest.dropLast.all (fun d => isUpperAZ d || isPySpace d) &&
      (match rest.getLast? with
       | some d => isUpperAZ d
       | none => false)

/-! ## `UniversalDocumentParser` requirements model
(`automated_email_qa/tools/universal_parser.py`)

The per-parse bookkeeping fields `encoding_fixed` and `encoding_issues`
(copies of mutable parser state that do not influence any extraction logic)
are not modelled. -/

/-- One entry of `requirements[’ctas’]`.  The text parser appends dicts with
keys `text`, `link`, `line_number`; the HTML parser appends dicts with keys
`text`, `link`, `html_class` — the two optional fields record which keys are
present. -/
structure CtaReq where
  text : Text
  link : Text
  line_number : Option Nat := none
  html_class : Option Text := none
deriving Repr, DecidableEq

/-- One entry of `requirements[’segments’]`. -/
structure SegmentEntry where
  requirements : List Text
  line_number : Nat
deriving Repr, DecidableEq

/-- The requirements dictionary produced by the universal document parser. -/
structure Requirements where
  subject_lines : List Text := []
  preview_text : Text := []
  from_name : Text := []
  from_email : Text := []
  ctas : List CtaReq := []
  links : List Text := []
  segments : List (Text × SegmentEntry) := []
  content_modules : List Text := []
  special_notes : List Text := []
deriving Repr, DecidableEq

/-- Source `any(pattern in line_lower for pattern in [’subject:’, ’subject line:’, ’sl:’])`. -/
def subjectCond (line_lower : Text) : Bool :=
  occurs "subject:".toList line_lower || occurs "subject line:".toList line_lower ||
    occurs "sl:".toList line_lower

/-- Source `any(pattern in line_lower for pattern in [’preview:’, ’preheader:’, ’preview text:’])`. -/
def previewCond (line_lower : Text) : Bool :=
  occurs "preview:".toList line_lower || occurs "preheader:".toList line_lower ||
    occurs "preview text:".toList line_lower

/-- The `if`/`elif` chain of the per-line loop of
`_parse_text_requirements` (branch order as in the source: subject, preview,
from name, from email, combined from, segment, CTA candidate). -/
def elifChain (i : Nat) (nextLine : Option Text) (line : Text)
    (cur : Option Text) (req : Requirements) : Option Text × Requirements :=
  let line_stripped := pyStrip line
  let line_lower := pyLower line_stripped
  if subjectCond line_lower then
    if occurs [':'] line then
      let subject := pyStrip (afterColon line)
      if !subject.isEmpty && !req.subject_lines.contains subject then
        (cur, { req with subject_lines := req.subject_lines ++ [subject] })
      else (cur, req)
    else (cur, req)
  else if previewCond line_lower then
    if occurs [':'] line then
      (cur, { req with preview_text := pyStrip (afterColon line) })
    else (cur, req)
  else if occurs "from name:".toList line_lower && occurs [':'] line then
    (cur, { req with from_name := pyStrip (afterColon line) })
  else if occurs "from email:".toList line_lower && occurs [':'] line then
    (cur, { req with from_email := pyStrip (afterColon line) })
  else if occurs "from:".toList line_lower && occurs ['@'] line then
    match reFromSearch line with
    | some g => (cur, { req with from_name := pyStrip g.1, from_email := pyStrip g.2 })
    | none => (cur, req)
  else if occurs "segment:".toList line_lower && occurs [':'] line then
    let seg := pyStrip (afterColon line)
    (some seg, { req with segments := setAssoc seg ⟨[], i + 1⟩ req.segments })
  else if ctaPatternMatch line_stripped then
    if 3 ≤ line_stripped.length && line_stripped.length ≤ 30 &&
        (pyWords line_stripped).length ≤ 5 then
      let next_url :=
        match nextLine with
        | some nl => (match searchUrl nl with | some u => u | none => [])
        | none => []
      (cur, { req with ctas := req.ctas ++ [⟨line_stripped, next_url, some (i + 1), none⟩] })
    else (cur, req)
  else (cur, req)

/-- URL collection step, run on every line after the `elif` chain:
`re.findall` then `rstrip(’.,;:)’)` then deduplicated append. -/
def collectUrls (line : Text) (req : Requirements) : Requirements :=
  (findAllUrls line).foldl
    (fun r url =>
      let clean := pyRstrip ".,;:)".toList url
      if r.links.contains clean then r
      else { r with links := r.links ++ [clean] })
    req

/-- Content-module collection step (`module:` / `section:` labels). -/
def collectModules (line : Text) (req : Requirements) : Requirements :=
  let line_lower := pyLower (pyStrip line)
  if occurs "module:".toList line_lower || occurs "section:".toList line_lower then
    if occurs [':'] line then
      let m := pyStrip (afterColon line)
      if req.content_modules.contains m then req
      else { req with content_modules := req.content_modules ++ [m] }
    else req
  else req

/-- Append an unlabeled line to the active segment
(`if current_segment and line_stripped and ’:’ not in line_stripped`). -/
def segmentAppend (line : Text) (cur : Option Text) (req : Requirements) : Requirements :=
  let line_stripped := pyStrip line
  match cur with
  | some s =>
    if !s.isEmpty && !line_stripped.isEmpty && !occurs [':'] line_stripped then
      { req with
        segments := updateAssoc s
          (fun e => { e with requirements := e.requirements ++ [line_stripped] })
          req.segments }
    else req
  | none => req

/-- Special-notes step (lines whose upper-cased stripped text begins with
`NOTE:`, `IMPORTANT:` or `ATTENTION:`). -/
def collectNotes (line : Text) (req : Requirements) : Requirements :=
  let line_stripped := pyStrip line
  let line_upper := pyUpper line_stripped
  if startsWith "NOTE:".toList line_upper || startsWith "IMPORTANT:".toList line_upper ||
      startsWith "ATTENTION:".toList line_upper then
    { req with special_notes := req.special_notes ++ [line_stripped] }
  else req

/-- The full body of the `for i, line in enumerate(lines)` loop of
`_parse_text_requirements`. -/
def processLine (i : Nat) (nextLine : Option Text) (line : Text)
    (cur : Option Text) (req : Requirements) : Option Text × Requirements :=
  let st := elifChain i nextLine line cur req
  let req := collectUrls line st.2
  let req := collectModules line req
  let req := segmentAppend line st.1 req
  let req := collectNotes line req
  (st.1, req)

/-- The loop of `_parse_text_requirements` over the remaining lines (`i` is
the index of the head line; the look-ahead line is the head of the tail). -/
def parseLinesLoop (i : Nat) (cur : Option Text) (req : Requirements) :
    List Text → Requirements
  | [] => req
  | line :: rest =>
    let st := processLine i rest.head? line cur req
    parseLinesLoop (i + 1) st.1 st.2 rest

/-- Source `UniversalDocumentParser._parse_text_requirements`. -/
def parseTextRequirements (content : Text) : Requirements :=
  parseLinesLoop 0 none {} (pySplitChar '\n' content)

/-! ## Structural lemmas about stripping -/

theorem stripLeft_head_not_space (t : Text) :
    stripLeft t = [] ∨ ∃ c cs, stripLeft t = c :: cs ∧ isPySpace c = false := by
  induction t with
  | nil => exact Or.inl rfl
  | cons c cs ih =>
    by_cases h : isPySpace c
    · simpa [stripLeft, List.dropWhile_cons, h] using ih
    · exact Or.inr ⟨c, cs, by simp [stripLeft, List.dropWhile_cons, h], by simp [h]⟩

theorem stripRight_head (c : Char) (cs : Text) :
    stripRight (c :: cs) = [] ∨ ∃ r, stripRight (c :: cs) = c :: r := by
  rw [stripRight]
  cases h : stripRight cs with
  | nil =>
    by_cases hc : isPySpace c
    · exact Or.inl (by simp [hc])
    · exact Or.inr ⟨[], by simp [hc]⟩
  | cons d ds => exact Or.inr ⟨d :: ds, rfl⟩

theorem stripRight_idem (t : Text) : stripRight (stripRight t) = stripRight t := by
  induction t with
  | nil => rfl
  | cons c cs ih =>
    rw [stripRight]
    cases h : stripRight cs with
    | nil =>
      by_cases hc : isPySpace c
      · simp [hc, stripRight]
      · simp [hc, stripRight]
    | cons d ds =>
      have hd : stripRight (d :: ds) = d :: ds := by
        have := ih
        rw [h] at this
        exact this
      rw [stripRight, hd]

theorem pyStrip_idem (t : Text) : pyStrip (pyStrip t) = pyStrip t := by
  unfold pyStrip
  have hL : stripLeft (stripRight (stripLeft t)) = stripRight (stripLeft t) := by
    rcases stripLeft_head_not_space t with h | ⟨c, cs, hEq, hc⟩
    · rw [h]; rfl
    · rw [hEq]
      rcases stripRight_head c cs with h2 | ⟨r, h2⟩
      · rw [h2]; rfl
      · rw [h2]
        simp [stripLeft, List.dropWhile_cons, hc]
  rw [hL, stripRight_idem]

/-! ## The preview-text and subject-line behaviour of the line loop -/

/-- A line on which the loop of `_parse_text_requirements` assigns
`preview_text`: the preview branch of the `elif` chain is reached (no subject
pattern matched first) and the line contains a colon. -/
def isPreviewAssign (line : Text) : Bool :=
  !subjectCond (pyLower (pyStrip line)) && previewCond (pyLower (pyStrip line)) &&
    occurs [':'] line

theorem elifChain_preview_pos (i : Nat) (nl : Option Text) (line : Text)
    (cur : Option Text) (req : Requirements) (h : isPreviewAssign line = true) :
    (elifChain i nl line cur req).2.preview_text = pyStrip (afterColon line) := by
  unfold isPreviewAssign at h
  simp only [Bool.and_eq_true, Bool.not_eq_true'] at h
  obtain ⟨⟨h1, h2⟩, h3⟩ := h
  simp only [elifChain, h1, h2, h3, Bool.false_eq_true, if_false, if_true]

theorem elifChain_preview_neg (i : Nat) (nl : Option Text) (line : Text)
    (cur : Option Text) (req : Requirements) (h : isPreviewAssign line = false) :
    (elifChain i nl line cur req).2.preview_text = req.preview_text := by
  by_cases h1 : subjectCond (pyLower (pyStrip line))
  · simp only [elifChain, h1, if_true]
    split_ifs <;> rfl
  · have h1 : subjectCond (pyLower (pyStrip line)) = false := Bool.of_not_eq_true h1
    by_cases h2 : previewCond (pyLower (pyStrip line))
    · have h3 : occurs [':'] line = false := by
        have := h
        simp only [isPreviewAssign, h1, h2, Bool.not_false, Bool.true_and,
          Bool.and_true] at this
        exact this
      simp [elifChain, h1, h2, h3]
    · have h2 : previewCond (pyLower (pyStrip line)) = false := Bool.of_not_eq_true h2
      simp only [elifChain, h1, h2, Bool.false_eq_true, if_false]
      split_ifs <;> first
        | rfl
        | (cases reFromSearch line <;> rfl)

theorem elifChain_preview (i : Nat) (nl : Option Text) (line : Text)
    (cur : Option Text) (req : Requirements) :
    (elifChain i nl line cur req).2.preview_text =
      (if isPreviewAssign line then pyStrip (afterColon line) else req.preview_text) := by
  by_cases h : isPreviewAssign line
  · rw [if_pos h, elifChain_preview_pos i nl line cur req h]
  · rw [if_neg h, elifChain_preview_neg i nl line cur req (Bool.not_eq_true _ ▸ h)]

theorem elifChain_subject_lines (i : Nat) (nl : Option Text) (line : Text)
    (cur : Option Text) (req : Requirements) :
    (elifChain i nl line cur req).2.subject_lines = req.subject_lines ∨
      ((elifChain i nl line cur req).2.subject_lines
          = req.subject_lines ++ [pyStrip (afterColon line)] ∧
        (pyStrip (afterColon line)).isEmpty = false) := by
  by_cases h1 : subjectCond (pyLower (pyStrip line))
  · by_cases hc : occurs [':'] line
    · by_cases hg : (!(pyStrip (afterColon line)).isEmpty &&
          !req.subject_lines.contains (pyStrip (afterColon line))) = true
      · simp only [Bool.and_eq_true, Bool.not_eq_true'] at hg
        refine Or.inr ⟨?_, hg.1⟩
        have hne : ¬pyStrip (afterColon line) = [] := by
          have := hg.1
          cases hx : pyStrip (afterColon line) with
          | nil => rw [hx] at this; simp at this
          | cons a as => simp
        have hmem : pyStrip (afterColon line) ∉ req.subject_lines := by
          have := hg.2
          simpa using this
        simp [elifChain, h1, hc, hne, hmem]
      · have hg : (!(pyStrip (afterColon line)).isEmpty &&
            !req.subject_lines.contains (pyStrip (afterColon line))) = false :=
          Bool.of_not_eq_true hg
        refine Or.inl ?_
        simp only [Bool.and_eq_false_iff, Bool.not_eq_false'] at hg
        simp only [elifChain, h1, hc, if_true]
        rcases hg with h | h
        · have : pyStrip (afterColon line) = [] := by simpa using h
          simp [this]
        · have : pyStrip (afterColon line) ∈ req.subject_lines := by simpa using h
          simp [this]
    · have hc : occurs [':'] line = false := Bool.of_not_eq_true hc
      refine Or.inl ?_
      simp [elifChain, h1, hc]
  · have h1 : subjectCond (pyLower (pyStrip line)) = false := Bool.of_not_eq_true h1
    refine Or.inl ?_
    simp only [elifChain, h1, Bool.false_eq_true, if_false]
    split_ifs <;> first
      | rfl
      | (cases reFromSearch line <;> rfl)

theorem collectUrls_preview (line : Text) (req : Requirements) :
    (collectUrls line req).preview_text = req.preview_text := by
  unfold collectUrls
  generalize findAllUrls line = urls
  induction urls generalizing req with
  | nil => rfl
  | cons u us ih =>
    rw [List.foldl_cons, ih]
    by_cases h : pyRstrip ['.', ',', ';', ':', ')'] u ∈ req.links <;> simp [h]

theorem collectUrls_subject_lines (line : Text) (req : Requirements) :
    (collectUrls line req).subject_lines = req.subject_lines := by
  unfold collectUrls
  generalize findAllUrls line = urls
  induction urls generalizing req with
  | nil => rfl
  | cons u us ih =>
    rw [List.foldl_cons, ih]
    by_cases h : pyRstrip ['.', ',', ';', ':', ')'] u ∈ req.links <;> simp [h]

theorem collectModules_preview (line : Text) (req : Requirements) :
    (collectModules line req).preview_text = req.preview_text := by
  simp only [collectModules]
  split_ifs <;> rfl

theorem collectModules_subject_lines (line : Text) (req : Requirements) :
    (collectModules line req).subject_lines = req.subject_lines := by
  simp only [collectModules]
  split_ifs <;> rfl

theorem segmentAppend_preview (line : Text) (cur : Option Text) (req : Requirements) :
    (segmentAppend line cur req).preview_text = req.preview_text := by
  cases cur with
  | none => rfl
  | some s =>
    simp only [segmentAppend]
    split_ifs <;> rfl

theorem segmentAppend_subject_lines (line : Text) (cur : Option Text) (req : Requirements) :
    (segmentAppend line cur req).subject_lines = req.subject_lines := by
  cases cur with
  | none => rfl
  | some s =>
    simp only [segmentAppend]
    split_ifs <;> rfl

theorem collectNotes_preview (line : Text) (req : Requirements) :
    (collectNotes line req).preview_text = req.preview_text := by
  simp only [collectNotes]
  split_ifs <;> rfl

theorem collectNotes_subject_lines (line : Text) (req : Requirements) :
    (collectNotes line req).subject_lines = req.subject_lines := by
  simp only [collectNotes]
  split_ifs <;> rfl

theorem processLine_preview (i : Nat) (nl : Option Text) (line : Text)
    (cur : Option Text) (req : Requirements) :
    (processLine i nl line cur req).2.preview_text =
      (if isPreviewAssign line then pyStrip (afterColon line) else req.preview_text) := by
  unfold processLine
  rw [collectNotes_preview, segmentAppend_preview, collectModules_preview,
    collectUrls_preview, elifChain_preview]

theorem processLine_subject_lines (i : Nat) (nl : Option Text) (line : Text)
    (cur : Option Text) (req : Requirements) :
    (processLine i nl line cur req).2.subject_lines = req.subject_lines ∨
      ((processLine i nl line cur req).2.subject_lines
          = req.subject_lines ++ [pyStrip (afterColon line)] ∧
        (pyStrip (afterColon line)).isEmpty = false) := by
  unfold processLine
  rw [collectNotes_subject_lines, segmentAppend_subject_lines,
    collectModules_subject_lines, collectUrls_subject_lines]
  exact elifChain_subject_lines i nl line cur req

theorem getLast?_cons_of_isSome {α : Type} (x : α) (l : List α) (y : α)
    (h : l.getLast? = some y) : (x :: l).getLast? = some y := by
  cases l with
  | nil => simp at h
  | cons a as =>
    rw [List.getLast?_cons_cons]
    exact h

theorem parseLinesLoop_preview (lines : List Text) :
    ∀ (i : Nat) (cur : Option Text) (req : Requirements),
      (parseLinesLoop i cur req lines).preview_text =
        (match (lines.filter isPreviewAssign).getLast? with
         | some l => pyStrip (afterColon l)
         | none => req.preview_text) := by
  induction lines with
  | nil => intro i cur req; rfl
  | cons line rest ih =>
    intro i cur req
    rw [parseLinesLoop, ih]
    by_cases h : isPreviewAssign line
    · rw [List.filter_cons_of_pos h]
      cases hf : (rest.filter isPreviewAssign).getLast? with
      | some l =>
        rw [getLast?_cons_of_isSome line _ l hf]
      | none =>
        have hr : rest.filter isPreviewAssign = [] := by
          cases hx : rest.filter isPreviewAssign with
          | nil => rfl
          | cons a as => rw [hx] at hf; simp [List.getLast?] at hf
        rw [hr]
        simp [processLine_preview, h]
    · rw [List.filter_cons_of_neg h]
      cases hf : (rest.filter isPreviewAssign).getLast? with
      | some l => rfl
      | none => simp [processLine_preview, h]

theorem parseLinesLoop_subject_invariant (lines : List Text) :
    ∀ (i : Nat) (cur : Option Text) (req : Requirements),
      (∀ s ∈ req.subject_lines, pyStrip s ≠ []) →
      ∀ s ∈ (parseLinesLoop i cur req lines).subject_lines, pyStrip s ≠ [] := by
  induction lines with
  | nil => intro i cur req h; exact h
  | cons line rest ih =>
    intro i cur req h
    rw [parseLinesLoop]
    apply ih
    rcases processLine_subject_lines i rest.head? line cur req with heq | ⟨heq, hne⟩
    · rw [heq]; exact h
    · rw [heq]
      intro s hs
      rcases List.mem_append.mp hs with hs | hs
      · exact h s hs
      · have : s = pyStrip (afterColon line) := List.mem_singleton.mp hs
        subst this
        rw [pyStrip_idem]
        intro hnil
        rw [hnil] at hne
        simp at hne

/-- Claim C3 (amended): When several lines match a preview label, the returned
`preview_text` is the value taken from the LAST matching line (each matching
line overwrites the previous assignment); it is empty when no line matches. -/
theorem C3_preview_last_match (content : Text) :
    (parseTextRequirements content).preview_text =
      (match ((pySplitChar '\n' content).filter isPreviewAssign).getLast? with
       | some l => pyStrip (afterColon l)
       | none => []) := by
  unfold parseTextRequirements
  rw [parseLinesLoop_preview]

/-- Claim C3 (counterexample): On a document whose two lines both match the
preview label, the extractor returns the SECOND value (last match wins), not
the first as claimed: for `"preview: A\npreview: B"` the result is `"B"`. -/
theorem C3_counterexample :
    (parseTextRequirements "preview: A\npreview: B".toList).preview_text = "B".toList ∧
      (parseTextRequirements "preview: A\npreview: B".toList).preview_text ≠ "A".toList := by
  constructor <;> decide

/-! ## HTML and EML paths of the universal document parser

BeautifulSoup and `email.message_from_string` are external libraries; their
output is modelled as structured input: an HTML document is its visible text
plus its anchor elements (with parent class list) plus its optional title
text, and a parsed message is its header association list plus its walked
parts in `msg.walk()` order.  Everything downstream of those library calls is
translated from the source. -/

/-- An `<a href=...>` element as seen by `_parse_html_requirements`:
`get_text(strip=True)`, the `href` value, and `link.parent.get(’class’, [])`. -/
structure HtmlAnchor where
  text : Text
  href : Text
  parent_classes : List Text
deriving Repr, DecidableEq

/-- An HTML document after BeautifulSoup parsing: `soup.get_text(separator=
’\n’, strip=True)`, the anchors, and the text of a `<title>` tag if any. -/
structure HtmlDoc where
  textContent : Text
  anchors : List HtmlAnchor
  title : Option Text
deriving Repr, DecidableEq

/-- Python `str.isupper`: at least one cased character and no lowercase
character (ASCII case predicates, matching the documents exercised). -/
def pyIsUpper (t : Text) : Bool :=
  t.any (fun c => c.isUpper || c.isLower) && t.all (fun c => !c.isLower)

/-- The parent-class CTA indicators of `_parse_html_requirements`. -/
def ctaIndicators : List Text := ["button".toList, "cta".toList, "btn".toList]

/-- The per-anchor body of the link loop in `_parse_html_requirements`. -/
def addHtmlCta (req : Requirements) (link : HtmlAnchor) : Requirements :=
  if !link.text.isEmpty && !link.href.isEmpty then
    let parent_classes := List.intercalate [' '] link.parent_classes
    let is_cta := ctaIndicators.any (fun ind => occurs ind (pyLower parent_classes))
    if is_cta || pyIsUpper link.text then
      if req.ctas.any (fun c => c.text == link.text) then req
      else
        { req with ctas := req.ctas ++
            [{ text := link.text, link := link.href, html_class := some parent_classes }] }
    else req
  else req

/-- Source `UniversalDocumentParser._parse_html_requirements`: parse the visible
text with the line heuristics, then add button-like anchors as CTAs, then
record the page title as a special note. -/
def parseHtmlRequirements (doc : HtmlDoc) : Requirements :=
  let requirements := parseTextRequirements doc.textContent
  let requirements := doc.anchors.foldl addHtmlCta requirements
  match doc.title with
  | some t =>
    if !(pyStrip t).isEmpty then
      { requirements with
        special_notes := requirements.special_notes ++ ["Page title: ".toList ++ pyStrip t] }
    else requirements
  | none => requirements

/-- One part yielded by `msg.walk()`: a decoded `text/html` part (already
parsed into an `HtmlDoc`), a decoded `text/plain` part, or a part of any
other content type (skipped by the loop). -/
inductive PartContent
  | html (doc : HtmlDoc)
  | plain (text : Text)
  | other
deriving Repr, DecidableEq

/-- A message as returned by `email.message_from_string`. -/
structure EmlMsg where
  headers : List (Text × Text)
  parts : List PartContent
deriving Repr, DecidableEq

/-- Source `msg.get(name, ’’)`: case-insensitive header lookup with empty default. -/
def headerGet (name : Text) (headers : List (Text × Text)) : Text :=
  match headers.find? (fun h => pyLower h.1 == pyLower name) with
  | some h => h.2
  | none => []

/-- Source `re.match(r’(.+?)\s*<(.+?)>’, from_header)`: anchored at the start, lazy
groups. -/
def matchNameEmail (t : Text) : Option (Text × Text) :=
  lazyPlus (fun g1 t2 =>
    wsStarGreedy (fun t3 =>
      match t3 with
      | '<' :: t4 =>
        lazyPlus (fun g2 t5 =>
          match t5 with
          | '>' :: _ => some (g1, g2)
          | _ => none) t4
      | _ => none) t2) t

/-- First-occurrence deduplication, modelling `list(set(xs))` (CPython set
iteration order is implementation-defined; only the element set matters to
any claim). -/
def dedupFirstAux (seen : List Text) : List Text → List Text
  | [] => []
  | x :: xs =>
    if seen.contains x then dedupFirstAux seen xs
    else x :: dedupFirstAux (seen ++ [x]) xs

/-- Source `list(set(xs))` as first-occurrence deduplication. -/
def dedupFirst (l : List Text) : List Text := dedupFirstAux [] l

/-- The body-part merge of `_parse_eml_format` (universal parser): an HTML
part contributes its CTAs and links, a plain part its modules and notes. -/
def mergeEmlPart (req : Requirements) : PartContent → Requirements
  | .html doc =>
    let hr := parseHtmlRequirements doc
    { req with ctas := req.ctas ++ hr.ctas, links := req.links ++ hr.links }
  | .plain text =>
    let tr := parseTextRequirements text
    { req with
      content_modules := req.content_modules ++ tr.content_modules,
      special_notes := req.special_notes ++ tr.special_notes }
  | .other => req

/-- Source `UniversalDocumentParser._parse_eml_format`: header-seeded subject and
sender, merged body parts, deduplicated links. -/
def parseEmlRequirements (msg : EmlMsg) : Requirements :=
  let requirements := parseTextRequirements []
  let requirements :=
    { requirements with subject_lines := [headerGet "Subject".toList msg.headers] }
  let from_header := headerGet "From".toList msg.headers
  let requirements :=
    if !from_header.isEmpty then
      match matchNameEmail from_header with
      | some g =>
        { requirements with from_name := pyStrip g.1, from_email := pyStrip g.2 }
      | none => { requirements with from_email := pyStrip from_header }
    else requirements
  let requirements := msg.parts.foldl mergeEmlPart requirements
  { requirements with links := dedupFirst requirements.links }

/-- An input document after format detection (`parse_document` applies
`_fix_encoding` to the raw text and then dispatches on filename extension or
the `_is_html`/`_is_eml` heuristics; the HTML/EML constructors carry the
already-library-parsed form of that fixed text). -/
inductive Document
  | text (content : Text)
  | html (doc : HtmlDoc)
  | eml (msg : EmlMsg)

/-- The dispatch of `UniversalDocumentParser.parse_document` onto the three
text-format paths. -/
def parseDocument : Document → Requirements
  | .text c => parseTextRequirements (fixEncoding c)
  | .html d => parseHtmlRequirements d
  | .eml m => parseEmlRequirements m

theorem addHtmlCta_subject_lines (req : Requirements) (link : HtmlAnchor) :
    (addHtmlCta req link).subject_lines = req.subject_lines := by
  simp only [addHtmlCta]
  split_ifs <;> rfl

theorem parseHtmlRequirements_subject_lines (doc : HtmlDoc) :
    (parseHtmlRequirements doc).subject_lines =
      (parseTextRequirements doc.textContent).subject_lines := by
  unfold parseHtmlRequirements
  have hfold : ∀ (l : List HtmlAnchor) (r : Requirements),
      (l.foldl addHtmlCta r).subject_lines = r.subject_lines := by
    intro l
    induction l with
    | nil => intro r; rfl
    | cons a as ih => intro r; rw [List.foldl_cons, ih, addHtmlCta_subject_lines]
  cases doc.title with
  | none => simp [hfold]
  | some t =>
    by_cases h : (pyStrip t).isEmpty <;> simp [h, hfold]

theorem mergeEmlPart_subject_lines (req : Requirements) (p : PartContent) :
    (mergeEmlPart req p).subject_lines = req.subject_lines := by
  cases p <;> rfl

theorem parseEmlRequirements_subject_lines (msg : EmlMsg) :
    (parseEmlRequirements msg).subject_lines = [headerGet "Subject".toList msg.headers] := by
  unfold parseEmlRequirements
  have hfold : ∀ (l : List PartContent) (r : Requirements),
      (l.foldl mergeEmlPart r).subject_lines = r.subject_lines := by
    intro l
    induction l with
    | nil => intro r; rfl
    | cons p ps ih => intro r; rw [List.foldl_cons, ih, mergeEmlPart_subject_lines]
  simp only [hfold]
  split_ifs with h
  · cases hm : matchNameEmail (headerGet "From".toList msg.headers) with
    | some g => simp [hfold, hm]
    | none => simp [hfold, hm]
  · simp [hfold]

theorem parseTextRequirements_subject_nonblank (content : Text) :
    ∀ s ∈ (parseTextRequirements content).subject_lines, pyStrip s ≠ [] := by
  unfold parseTextRequirements
  apply parseLinesLoop_subject_invariant
  intro s hs
  exact absurd hs (List.not_mem_nil s)

/-- Claim C4 (amended): On the plain-text and HTML paths, `subject_lines`
never contains a blank (empty or whitespace-only) entry; on the EML path
`subject_lines` is exactly the singleton Subject header, so the invariant
holds only when that header is present and non-blank (hypothesis `h`), and
fails otherwise (see `C4_counterexample`). -/
theorem C4_subject_lines_nonblank (d : Document)
    (h : ∀ m, d = Document.eml m → pyStrip (headerGet "Subject".toList m.headers) ≠ []) :
    ∀ s ∈ (parseDocument d).subject_lines, pyStrip s ≠ [] := by
  cases d with
  | text c => exact parseTextRequirements_subject_nonblank (fixEncoding c)
  | html doc =>
    intro s hs
    rw [parseDocument, parseHtmlRequirements_subject_lines] at hs
    exact parseTextRequirements_subject_nonblank doc.textContent s hs
  | eml m =>
    intro s hs
    rw [parseDocument, parseEmlRequirements_subject_lines] at hs
    have : s = headerGet "Subject".toList m.headers := List.mem_singleton.mp hs
    subst this
    exact h m rfl

/-- Witness for `C4_subject_lines_nonblank` at a concrete EML message whose
Subject header is present and non-blank. -/
theorem C4_subject_lines_nonblank_witness :
    (parseDocument
        (Document.eml ⟨[("Subject".toList, "Hi".toList)], []⟩)).subject_lines
      = ["Hi".toList] ∧
      pyStrip "Hi".toList ≠ [] :=
  ⟨rfl,
    C4_subject_lines_nonblank (Document.eml ⟨[("Subject".toList, "Hi".toList)], []⟩)
      (fun _ hm => by cases hm; decide) "Hi".toList (by decide)⟩

/-- Claim C4 (counterexample): An EML message with no Subject header (here
only a From header) yields `subject_lines == [’’]`: a blank entry, violating
the claimed invariant on the EML path. -/
theorem C4_counterexample :
    (parseDocument (Document.eml ⟨[("From".toList, "a@b.c".toList)], []⟩)).subject_lines
        = [[]] ∧
      pyStrip [] = ([] : Text) := by
  constructor
  · decide
  · rfl

/-! ## `EmailParser` (`automated_email_qa/tools/email_parser.py`)

As before, BeautifulSoup output is modelled as structured input (hidden
preview elements, anchors with their attributes, images), and a parsed
message as headers plus walked parts.  Everything downstream is translated
from the source.  The `encoding_issues` log (append-only diagnostics) is not
modelled. -/

/-- Python `str.strip(chars)`: remove the given characters from both ends. -/
def pyStripSet (cs : List Char) (t : Text) : Text :=
  pyRstrip cs (t.dropWhile (fun c => cs.contains c))

/-- An `<a href=...>` element with the attributes inspected by
`EmailParser`: text, href, own class list, parent class list, `role`
attribute, `style` attribute. -/
structure Anchor where
  text : Text
  href : Text
  classes : List Text
  parent_classes : List Text
  role : Option Text
  style : Text
deriving Repr, DecidableEq

/-- The `LinkData` dataclass (the unused `attributes` dict is omitted). -/
structure LinkData where
  text : Text
  url : Text
  is_cta : Bool := false
  utm_params : List (Text × Text) := []
  parent_classes : List Text := []
deriving Repr, DecidableEq

/-- Source `urlparse(url)`: drop the fragment (everything from the first `#`). -/
def dropFragment (t : Text) : Text := t.takeWhile (fun c => c != '#')

/-- Source `urlparse(url).query`: text after the first `?` of the defragmented URL
(empty when there is no `?`). -/
def urlQuery (url : Text) : Text :=
  let u := dropFragment url
  if occurs ['?'] u then afterQuestion u else []
where
  afterQuestion : Text → Text
    | [] => []
    | c :: cs => if c == '?' then cs else afterQuestion cs

/-- Source `parse_qs` field list: split the query on `&`, keep `name=value` fields
with a non-empty value (default `keep_blank_values=False`; percent-decoding
is not exercised by the repository inputs and is not modelled). -/
def parseQsl (query : Text) : List (Text × Text) :=
  (pySplitChar '&' query).filterMap fun field =>
    if occurs ['='] field then
      let name := field.takeWhile (fun c => c != '=')
      let value := afterEq field
      if value.isEmpty then none else some (name, value)
    else none
where
  afterEq : Text → Text
    | [] => []
    | c :: cs => if c == '=' then cs else afterEq cs

/-- Keep the first value of each key, in first-occurrence order (`parse_qs`
dict construction followed by taking `v[0]`). -/
def groupFirstAux (seen : List Text) : List (Text × Text) → List (Text × Text)
  | [] => []
  | kv :: rest =>
    if seen.contains kv.1 then groupFirstAux seen rest
    else kv :: groupFirstAux (seen ++ [kv.1]) rest

/-- The UTM dict of `_extract_link_data`: `parse_qs` of the URL query,
first value per key, keys filtered to the `utm_` prefix. -/
def parseUtmParams (url : Text) : List (Text × Text) :=
  (groupFirstAux [] (parseQsl (urlQuery url))).filter
    (fun kv => startsWith "utm_".toList kv.1)

/-- Source `EmailParser._extract_link_data`. -/
def extractLinkData (a : Anchor) : LinkData :=
  { text := a.text, url := a.href, parent_classes := a.parent_classes,
    utm_params := parseUtmParams a.href }

/-- Source `EmailParser.CTA_INDICATORS`. -/
def CTA_INDICATORS : List Text :=
  ["button".toList, "btn".toList, "cta".toList, "call-to-action".toList,
    "action".toList, "primary".toList, "secondary".toList]

/-- Source `EmailParser._is_cta`: parent classes, own classes, short all-uppercase
text, `role="button"`, or button-like inline style. -/
def isCtaLink (ld : LinkData) (a : Anchor) : Bool :=
  let parent_class_text := pyLower (List.intercalate [' '] ld.parent_classes)
  if CTA_INDICATORS.any (fun ind => occurs ind parent_class_text) then true
  else if CTA_INDICATORS.any
      (fun ind => occurs ind (pyLower (List.intercalate [' '] a.classes))) then true
  else if !ld.text.isEmpty && pyIsUpper ld.text && decide ((pyWords ld.text).length ≤ 4) then
    true
  else if a.role == some "button".toList then true
  else if ["background-color".toList, "padding".toList, "border-radius".toList].any
      (fun prop => occurs prop (pyLower a.style)) then true
  else false

/-- Source `EmailParser._is_unsubscribe_link`. -/
def isUnsubscribeLink (ld : LinkData) : Bool :=
  ["unsubscribe".toList, "opt-out".toList, "opt out".toList, "remove".toList,
    "preferences".toList, "manage subscription".toList,
    "email preferences".toList].any
    (fun ind => occurs ind (pyLower ld.text) || occurs ind (pyLower ld.url))

/-- Source `components[’utm_tracking’]`. -/
structure UtmTracking where
  has_utm : Bool := false
  utm_source : List Text := []
  utm_medium : List Text := []
  utm_campaign : List Text := []
deriving Repr, DecidableEq

/-- One entry of `components[’links’]`. -/
structure EmailLink where
  text : Text
  url : Text
  is_cta : Bool
  utm_params : List (Text × Text)
deriving Repr, DecidableEq

/-- One entry of `components[’ctas’]`. -/
structure EmailCta where
  text : Text
  url : Text
  utm_params : List (Text × Text)
deriving Repr, DecidableEq

/-- One entry of `components[’images’]` (the dict built from `img` attrs). -/
structure EmailImage where
  src : Text
  alt : Text
  width : Text
  height : Text
  title : Text
deriving Repr, DecidableEq

/-- The components dictionary initialised at the top of
`EmailParser.parse_email` (the `encoding_issues` log is omitted). -/
structure EmailComponents where
  subject : Text := []
  «from» : Text := []
  from_name : Text := []
  preview_text : Text := []
  html_body : Text := []
  plain_body : Text := []
  links : List EmailLink := []
  ctas : List EmailCta := []
  images : List EmailImage := []
  headers : List (Text × Text) := []
  unsubscribe_link : Text := []
  has_physical_address : Bool := false
  has_unsubscribe : Bool := false
  utm_tracking : UtmTracking := {}
deriving Repr, DecidableEq

/-- An HTML email body after BeautifulSoup parsing: the texts of hidden
`div`/`span` elements in document order, the anchors, and the images. -/
structure HtmlEmailDoc where
  preview_elements : List Text
  anchors : List Anchor
  images : List EmailImage
deriving Repr, DecidableEq

/-- The UTM-tracking update of the link loop of `_parse_html_content`. -/
def trackUtm (params : List (Text × Text)) (ut : UtmTracking) : UtmTracking :=
  params.foldl
    (fun ut pv =>
      if pv.1 = "utm_source".toList then
        (if ut.utm_source.contains pv.2 then ut
         else { ut with utm_source := ut.utm_source ++ [pv.2] })
      else if pv.1 = "utm_medium".toList then
        (if ut.utm_medium.contains pv.2 then ut
         else { ut with utm_medium := ut.utm_medium ++ [pv.2] })
      else if pv.1 = "utm_campaign".toList then
        (if ut.utm_campaign.contains pv.2 then ut
         else { ut with utm_campaign := ut.utm_campaign ++ [pv.2] })
      else ut)
    { ut with has_utm := true }

/-- The body of the anchor loop of `_parse_html_content`: extend the local
`all_links` accumulator and update ctas, the unsubscribe fields and the UTM
tracking. -/
def anchorStep (st : EmailComponents × List LinkData) (link : Anchor) :
    EmailComponents × List LinkData :=
  let link_data := extractLinkData link
  let all_links := st.2 ++ [link_data]
  let components := st.1
  let components :=
    if isCtaLink link_data link then
      { components with
        ctas := components.ctas ++
          [⟨link_data.text, link_data.url, link_data.utm_params⟩] }
    else components
  let components :=
    if isUnsubscribeLink link_data then
      { components with unsubscribe_link := link_data.url, has_unsubscribe := true }
    else components
  let components :=
    if !link_data.utm_params.isEmpty then
      { components with utm_tracking := trackUtm link_data.utm_params components.utm_tracking }
    else components
  (components, all_links)

/-- The preview-text step of `_parse_html_content`: the text of the first
hidden element, if any. -/
def previewStep (doc : HtmlEmailDoc) (components : EmailComponents) : EmailComponents :=
  match doc.preview_elements with
  | p :: _ => { components with preview_text := p }
  | [] => components

/-- Source `EmailParser._parse_html_content`: preview text from the first hidden
element, the anchor loop, then `components[’links’]` REASSIGNED from the
local `all_links` list, then the images. -/
def parseHtmlContent (doc : HtmlEmailDoc) (components : EmailComponents) :
    EmailComponents :=
  let st := doc.anchors.foldl anchorStep (previewStep doc components, [])
  { st.1 with
    links := st.2.map (fun (l : LinkData) =>
      (⟨l.text, l.url, l.is_cta, l.utm_params⟩ : EmailLink)),
    images := st.1.images ++ doc.images }

/-- One part yielded by `msg.walk()` for the email parser: a `text/html`
part carries both its decoded body text and its BeautifulSoup parse. -/
inductive EmailPartContent
  | html (body : Text) (doc : HtmlEmailDoc)
  | plain (body : Text)
  | other
deriving Repr, DecidableEq

/-- A rendered email message as returned by `email.message_from_string`. -/
structure EmlEmailMsg where
  headers : List (Text × Text)
  parts : List EmailPartContent
deriving Repr, DecidableEq

/-- The body-part loop of `EmailParser._parse_eml_format`. -/
def emlPartStep (c : EmailComponents) : EmailPartContent → EmailComponents
  | .html body doc => parseHtmlContent doc { c with html_body := body }
  | .plain body => { c with plain_body := body }
  | .other => c

/-- Source `EmailParser._parse_eml_format`: headers (subject, from with the
`Name <email>` split, all headers stored), then the part loop. -/
def parseEmlEmail (msg : EmlEmailMsg) (components : EmailComponents) :
    EmailComponents :=
  let components :=
    { components with
      subject := headerGet "Subject".toList msg.headers,
      «from» := headerGet "From".toList msg.headers }
  let components :=
    match matchNameEmail components.«from» with
    | some g =>
      { components with
        from_name := pyStripSet ['\x22'] (pyStrip g.1),
        «from» := pyStrip g.2 }
    | none => components
  let components :=
    { components with
      headers := msg.headers.foldl (fun h kv => setAssoc kv.1 kv.2 h) components.headers }
  msg.parts.foldl emlPartStep components

/-- Last-matching-fix semantics of `_fix_encoding_in_components` on strings
inside list-of-dict fields: each replacement is applied to the ORIGINAL
value, so only the last matching table entry takes effect. -/
def fixItemStr (s : Text) : Text :=
  ENCODING_FIXES.foldl (fun acc pr => if occurs pr.1 s then pyReplace pr.1 pr.2 s else acc) s

/-- Source `EmailParser._fix_encoding_in_components`: top-level string fields get
the cumulative fix chain (same as `_fix_encoding`); string values inside the
`links`/`ctas`/`images` dict lists get the last-matching fix only; dict
fields (`headers`, `utm_tracking`) are untouched. -/
def fixEncodingInComponents (c : EmailComponents) : EmailComponents :=
  { c with
    subject := fixEncoding c.subject,
    «from» := fixEncoding c.«from»,
    from_name := fixEncoding c.from_name,
    preview_text := fixEncoding c.preview_text,
    html_body := fixEncoding c.html_body,
    plain_body := fixEncoding c.plain_body,
    unsubscribe_link := fixEncoding c.unsubscribe_link,
    links := c.links.map (fun l => { l with text := fixItemStr l.text, url := fixItemStr l.url }),
    ctas := c.ctas.map (fun k => { k with text := fixItemStr k.text, url := fixItemStr k.url }),
    images := c.images.map (fun im =>
      { src := fixItemStr im.src, alt := fixItemStr im.alt, width := fixItemStr im.width,
        height := fixItemStr im.height, title := fixItemStr im.title }) }

/-- Regex `\w` (ASCII model). -/
def isWordChar (c : Char) : Bool := c.isAlpha || c.isDigit || c == '_'

/-- Street-suffix alternation of the first physical-address pattern. -/
def streetSuffixes : List Text :=
  ["street".toList, "st".toList, "avenue".toList, "ave".toList, "road".toList,
    "rd".toList, "boulevard".toList, "blvd".toList, "lane".toList, "ln".toList,
    "drive".toList, "dr".toList, "court".toList, "ct".toList, "plaza".toList,
    "pl".toList]

/-- After at least one `[\w\s]` character, some street suffix starts
(existence semantics of `[\w\s]+(?:street|st|...)`). -/
def addrTailAux : Text → Bool
  | [] => false
  | c :: cs =>
    (streetSuffixes.any fun suf => startsWith suf (c :: cs)) ||
      ((isWordChar c || isPySpace c) && addrTailAux cs)

/-- Source `\d+\s+[\w\s]+(?:street|...)` anchored at the head (on lowered text). -/
def addr1At (t : Text) : Bool :=
  match t with
  | c :: cs =>
    c.isDigit &&
      (let u := cs.dropWhile Char.isDigit
       match u with
       | d :: ds =>
         isPySpace d &&
           (let v := ds.dropWhile isPySpace
            match v with
            | e :: es => (isWordChar e || isPySpace e) && addrTailAux es
            | [] => false)
       | [] => false)
  | [] => false

/-- Source `(?:p\.?o\.?\s*box|po\s*box)\s+\d+` anchored at the head. -/
def addr2At (t : Text) : Bool :=
  match t with
  | 'p' :: r1 =>
    let r2 := if r1.head? == some '.' then r1.tail else r1
    (match r2 with
     | 'o' :: r3 =>
       let r4 := if r3.head? == some '.' then r3.tail else r3
       let r5 := r4.dropWhile isPySpace
       startsWith "box".toList r5 &&
         (let r6 := r5.drop 3
          match r6 with
          | s :: r7 => isPySpace s && (r7.dropWhile isPySpace).head?.any Char.isDigit
          | [] => false)
     | _ => false)
  | _ => false

/-- Source `\d{5}` anchored at the head (the optional `-\d{4}` tail never affects
whether a match exists). -/
def addr3At (t : Text) : Bool :=
  decide (5 ≤ (t.takeWhile Char.isDigit).length)

/-- Source `(?:suite|ste|apt)\s+\d+` anchored at the head. -/
def addr4At (t : Text) : Bool :=
  ["suite".toList, "ste".toList, "apt".toList].any fun kw =>
    startsWith kw t &&
      (let r := t.drop kw.length
       match r with
       | s :: r2 => isPySpace s && (r2.dropWhile isPySpace).head?.any Char.isDigit
       | [] => false)

/-- Source `re.search` of any of the four `PHYSICAL_ADDRESS_PATTERNS` with
`re.IGNORECASE` (as a Boolean on the lowered text): scan every position. -/
def hasAddrPattern (t : Text) : Bool :=
  scan (pyLower t)
where
  scan : Text → Bool
    | [] => false
    | c :: cs =>
      addr1At (c :: cs) || addr2At (c :: cs) || addr3At (c :: cs) || addr4At (c :: cs) ||
        scan cs

/-- Source `EmailParser._check_compliance_elements` (only the
`has_physical_address` update is observable in the returned components). -/
def checkComplianceElements (c : EmailComponents) : EmailComponents :=
  if hasAddrPattern (c.html_body ++ [' '] ++ c.plain_body) then
    { c with has_physical_address := true }
  else c

/-- The input to `EmailParser.parse_email` after the `_is_eml_format`
dispatch: a message, or an HTML body (with its BeautifulSoup parse). -/
inductive EmailInput
  | eml (msg : EmlEmailMsg)
  | html (body : Text) (doc : HtmlEmailDoc)

/-- Source `EmailParser.parse_email`: dispatch, then the encoding fixes and
compliance checks. -/
def parseEmail : EmailInput → EmailComponents
  | .eml msg => checkComplianceElements (fixEncodingInComponents (parseEmlEmail msg {}))
  | .html body doc =>
    checkComplianceElements
      (fixEncodingInComponents (parseHtmlContent doc { html_body := body }))

/-- The claimed `EmailComponents` invariant, as an executable predicate:
every CTA’s `(text, url)` pair appears among the links. -/
def ctasInLinks (c : EmailComponents) : Bool :=
  c.ctas.all (fun k => c.links.any (fun l => l.text == k.text && l.url == k.url))

/-- Whether a walked part is a `text/html` part. -/
def isHtmlPart : EmailPartContent → Bool
  | .html _ _ => true
  | _ => false

theorem anchorStep_links (st : EmailComponents × List LinkData) (a : Anchor) :
    (anchorStep st a).2 = st.2 ++ [extractLinkData a] := by
  simp only [anchorStep]

theorem anchorStep_ctas (st : EmailComponents × List LinkData) (a : Anchor) :
    (anchorStep st a).1.ctas = st.1.ctas ∨
      (anchorStep st a).1.ctas = st.1.ctas ++
        [⟨(extractLinkData a).text, (extractLinkData a).url,
          (extractLinkData a).utm_params⟩] := by
  simp only [anchorStep]
  split_ifs <;> first
    | exact Or.inl rfl
    | exact Or.inr rfl

theorem anchorFold_links_mono (anchors : List Anchor) :
    ∀ (st : EmailComponents × List LinkData),
      ∃ tail, (anchors.foldl anchorStep st).2 = st.2 ++ tail := by
  induction anchors with
  | nil => intro st; exact ⟨[], by simp⟩
  | cons a as ih =>
    intro st
    rw [List.foldl_cons]
    obtain ⟨tail, htail⟩ := ih (anchorStep st a)
    exact ⟨[extractLinkData a] ++ tail, by rw [htail, anchorStep_links, List.append_assoc]⟩

theorem anchorFold_ctas (anchors : List Anchor) :
    ∀ (st : EmailComponents × List LinkData),
      ∀ k ∈ (anchors.foldl anchorStep st).1.ctas,
        k ∈ st.1.ctas ∨
          ∃ ld ∈ (anchors.foldl anchorStep st).2, ld.text = k.text ∧ ld.url = k.url := by
  induction anchors with
  | nil => intro st k hk; exact Or.inl hk
  | cons a as ih =>
    intro st k hk
    rw [List.foldl_cons] at hk ⊢
    rcases ih (anchorStep st a) k hk with hmem | ⟨ld, hld, hpair⟩
    · rcases anchorStep_ctas st a with hc | hc
      · rw [hc] at hmem
        exact Or.inl hmem
      · rw [hc] at hmem
        rcases List.mem_append.mp hmem with hmem | hmem
        · exact Or.inl hmem
        · have hk' := List.mem_singleton.mp hmem
          subst hk'
          refine Or.inr ⟨extractLinkData a, ?_, rfl, rfl⟩
          obtain ⟨tail, htail⟩ := anchorFold_links_mono as (anchorStep st a)
          rw [htail, anchorStep_links]
          simp
    · exact Or.inr ⟨ld, hld, hpair⟩

theorem previewStep_ctas (doc : HtmlEmailDoc) (c : EmailComponents) :
    (previewStep doc c).ctas = c.ctas := by
  unfold previewStep
  cases doc.preview_elements <;> rfl

theorem parseHtmlContent_ctas (doc : HtmlEmailDoc) (c : EmailComponents) :
    ∀ k ∈ (parseHtmlContent doc c).ctas,
      k ∈ c.ctas ∨
        ∃ l ∈ (parseHtmlContent doc c).links, l.text = k.text ∧ l.url = k.url := by
  intro k hk
  have hk' : k ∈ ((doc.anchors.foldl anchorStep (previewStep doc c, [])).1).ctas := hk
  rcases anchorFold_ctas doc.anchors (previewStep doc c, []) k hk' with hmem | ⟨ld, hld, h1, h2⟩
  · left
    exact (previewStep_ctas doc c) ▸ hmem
  · right
    refine ⟨⟨ld.text, ld.url, ld.is_cta, ld.utm_params⟩, ?_, h1, h2⟩
    show _ ∈ (doc.anchors.foldl anchorStep (previewStep doc c, [])).2.map
      (fun (l : LinkData) => (⟨l.text, l.url, l.is_cta, l.utm_params⟩ : EmailLink))
    exact List.mem_map.mpr ⟨ld, hld, rfl⟩

theorem emlPartStep_not_html (c : EmailComponents) (p : EmailPartContent)
    (h : isHtmlPart p = false) :
    (emlPartStep c p).ctas = c.ctas ∧ (emlPartStep c p).links = c.links := by
  cases p with
  | html body doc => simp [isHtmlPart] at h
  | plain body => exact ⟨rfl, rfl⟩
  | other => exact ⟨rfl, rfl⟩

theorem emlFold_no_html (parts : List EmailPartContent)
    (h : ∀ p ∈ parts, isHtmlPart p = false) :
    ∀ c : EmailComponents,
      (parts.foldl emlPartStep c).ctas = c.ctas ∧
        (parts.foldl emlPartStep c).links = c.links := by
  induction parts with
  | nil => intro c; exact ⟨rfl, rfl⟩
  | cons p ps ih =>
    intro c
    rw [List.foldl_cons]
    have hp := h p (List.mem_cons_self p ps)
    obtain ⟨h1, h2⟩ := emlPartStep_not_html c p hp
    obtain ⟨h3, h4⟩ := ih (fun q hq => h q (List.mem_cons_of_mem p hq)) (emlPartStep c p)
    exact ⟨h3.trans h1, h4.trans h2⟩

theorem emlFold_cta_pairs (parts : List EmailPartContent)
    (hcount : (parts.filter isHtmlPart).length ≤ 1) :
    ∀ c : EmailComponents, c.ctas = [] →
      ∀ k ∈ (parts.foldl emlPartStep c).ctas,
        ∃ l ∈ (parts.foldl emlPartStep c).links, l.text = k.text ∧ l.url = k.url := by
  induction parts with
  | nil =>
    intro c hc k hk
    rw [List.foldl_nil] at hk
    rw [hc] at hk
    exact absurd hk (List.not_mem_nil k)
  | cons p ps ih =>
    intro c hc k hk
    rw [List.foldl_cons] at hk ⊢
    cases p with
    | plain body =>
      refine ih (by simpa [isHtmlPart] using hcount) _ ?_ k hk
      simpa [emlPartStep] using hc
    | other =>
      refine ih (by simpa [isHtmlPart] using hcount) _ ?_ k hk
      simpa [emlPartStep] using hc
    | html body doc =>
      have hrest : ∀ q ∈ ps, isHtmlPart q = false := by
        intro q hq
        by_contra hcon
        have hq' : isHtmlPart q = true := by
          cases hx : isHtmlPart q
          · exact absurd hx hcon
          · rfl
        have : 2 ≤ ((EmailPartContent.html body doc :: ps).filter isHtmlPart).length := by
          rw [List.filter_cons_of_pos (by simp [isHtmlPart])]
          have : q ∈ ps.filter isHtmlPart := List.mem_filter.mpr ⟨hq, hq'⟩
          have hlen : 1 ≤ (ps.filter isHtmlPart).length :=
            List.length_pos.mpr (List.ne_nil_of_mem this)
          simpa using Nat.succ_le_succ hlen
        omega
      obtain ⟨hctas, hlinks⟩ := emlFold_no_html ps hrest (emlPartStep c (.html body doc))
      rw [hctas] at hk
      rw [hlinks]
      have hinner := parseHtmlContent_ctas doc { c with html_body := body } k hk
      rcases hinner with hmem | hpair
      · rw [show ({ c with html_body := body } : EmailComponents).ctas = c.ctas from rfl,
          hc] at hmem
        exact absurd hmem (List.not_mem_nil k)
      · exact hpair

theorem fixEncodingInComponents_cta_pairs (c : EmailComponents)
    (h : ∀ k ∈ c.ctas, ∃ l ∈ c.links, l.text = k.text ∧ l.url = k.url) :
    ∀ k ∈ (fixEncodingInComponents c).ctas,
      ∃ l ∈ (fixEncodingInComponents c).links, l.text = k.text ∧ l.url = k.url := by
  intro k hk
  simp only [fixEncodingInComponents, List.mem_map] at hk
  obtain ⟨k0, hk0, hk0eq⟩ := hk
  obtain ⟨l0, hl0, h1, h2⟩ := h k0 hk0
  refine ⟨{ l0 with text := fixItemStr l0.text, url := fixItemStr l0.url }, ?_, ?_, ?_⟩
  · simp only [fixEncodingInComponents, List.mem_map]
    exact ⟨l0, hl0, rfl⟩
  · rw [← hk0eq]
    simp [h1]
  · rw [← hk0eq]
    simp [h2]

theorem checkComplianceElements_ctas (c : EmailComponents) :
    (checkComplianceElements c).ctas = c.ctas ∧
      (checkComplianceElements c).links = c.links := by
  unfold checkComplianceElements
  split_ifs <;> exact ⟨rfl, rfl⟩

/-- Claim C5 (amended): For HTML input, and for message input whose walk
contains at most one `text/html` part, every CTA’s `(text, url)` pair also
appears among `links`.  For multipart messages with two or more HTML parts
the invariant fails (see `C5_counterexample`): the anchor loop REASSIGNS
`links` from the per-part local list while `ctas` accumulates across parts. -/
theorem C5_cta_pairs_in_links (input : EmailInput)
    (h : ∀ m, input = EmailInput.eml m → (m.parts.filter isHtmlPart).length ≤ 1) :
    ctasInLinks (parseEmail input) = true := by
  have main : ∀ k ∈ (parseEmail input).ctas,
      ∃ l ∈ (parseEmail input).links, l.text = k.text ∧ l.url = k.url := by
    cases input with
    | html body doc =>
      unfold parseEmail
      intro k hk
      rw [(checkComplianceElements_ctas _).1] at hk
      rw [(checkComplianceElements_ctas _).2]
      refine fixEncodingInComponents_cta_pairs _ ?_ k hk
      intro k' hk'
      rcases parseHtmlContent_ctas doc { html_body := body } k' hk' with hmem | hpair
      · exact absurd hmem (List.not_mem_nil k')
      · exact hpair
    | eml m =>
      unfold parseEmail
      intro k hk
      rw [(checkComplianceElements_ctas _).1] at hk
      rw [(checkComplianceElements_ctas _).2]
      refine fixEncodingInComponents_cta_pairs _ ?_ k hk
      intro k' hk'
      unfold parseEmlEmail at hk' ⊢
      simp only [] at hk' ⊢
      refine emlFold_cta_pairs m.parts (h m rfl) _ ?_ k' hk'
      cases hm : matchNameEmail (headerGet "From".toList m.headers) <;> simp [hm]
  simp only [ctasInLinks, List.all_eq_true, List.any_eq_true]
  intro k hk
  obtain ⟨l, hl, h1, h2⟩ := main k hk
  exact ⟨l, hl, by simp [h1, h2]⟩

/-- Witness for `C5_cta_pairs_in_links` at a concrete single-part HTML
email. -/
theorem C5_cta_pairs_in_links_witness :
    ctasInLinks (parseEmail (EmailInput.html "<x>".toList
      ⟨[], [⟨"SHOP NOW".toList, "https://e.com/shop".toList, [], [], none, []⟩],
        []⟩)) = true :=
  C5_cta_pairs_in_links _ (fun _ hm => nomatch hm)

/-- Claim C5 (counterexample): A multipart message with two `text/html` parts:
the first part contributes the CTA `("GO NOW", "http://a.com")` to `ctas`,
but `links` is then overwritten by the second part’s anchor list, so the
CTA’s `(text, url)` pair is absent from `links`. -/
theorem C5_counterexample :
    ctasInLinks (parseEmail (EmailInput.eml ⟨[],
      [EmailPartContent.html "h1".toList
        ⟨[], [⟨"GO NOW".toList, "http://a.com".toList, [], [], none, []⟩], []⟩,
       EmailPartContent.html "h2".toList
        ⟨[], [⟨"hello".toList, "http://b.com".toList, [], [], none, []⟩], []⟩]⟩))
      = false := by
  decide

/-! ## `DynamicRulesEngine` (`email_qa/rules/engine.py`)

The rule files on disk are modelled as a store: an association list from
normalized client key to file content (absent, syntactically invalid JSON,
or a parsed document).  The in-memory cache (`loaded_rules`) only memoizes
`load_rules` results and is not modelled.  Python `str` values formatted
into messages by f-strings are rebuilt by concatenation; a Python list
formatted into an f-string is rebuilt by `pyReprStrList` (accurate for
strings without quote or escape characters, which is the only use here). -/

/-- A link dict as consumed by the engine and the link validator
(`link.get("url", "")`, `link.get("text", "")`, `link.get("utm_params", {})`). -/
structure VLink where
  url : Text := []
  text : Text := []
  utm_params : List (Text × Text) := []
deriving Repr, DecidableEq

/-- The `utm_requirements` rule section. -/
structure UtmReqs where
  required_params : List Text := []
  expected_values : List (Text × Text) := []
deriving Repr, DecidableEq

/-- Source `repr` of a Python string (for strings without quotes or escapes). -/
def pyReprStr (s : Text) : Text := '\x27' :: (s ++ ['\x27'])

/-- Source `str(list_of_strings)` as produced inside an f-string. -/
def pyReprStrList (xs : List Text) : Text :=
  '[' :: (List.intercalate ", ".toList (xs.map pyReprStr) ++ [']'])

/-- Python `str.title()`. -/
def pyTitleAux (prevCased : Bool) : Text → Text
  | [] => []
  | c :: cs =>
    let cased := c.isUpper || c.isLower
    let c' := if cased then (if prevCased then c.toLower else c.toUpper) else c
    c' :: pyTitleAux cased cs

/-- Python `str.title()`: first cased character of every cased run
uppercased, the rest lowercased. -/
def pyTitle (t : Text) : Text := pyTitleAux false t

/-- Python `str.istitle()`. -/
def pyIsTitleAux (prevCased found : Bool) : Text → Bool
  | [] => found
  | c :: cs =>
    if c.isUpper then (if prevCased then false else pyIsTitleAux true true cs)
    else if c.isLower then (if prevCased then pyIsTitleAux true true cs else false)
    else pyIsTitleAux false found cs

/-- Python `str.istitle()`: uppercase letters only after uncased characters,
lowercase only after cased ones, and at least one cased character. -/
def pyIsTitle (t : Text) : Bool := pyIsTitleAux false false t

/-- Dictionary lookup on an association list (`d.get(k)` / `k in d`). -/
def lookupAssoc {α : Type} (l : List (Text × α)) (k : Text) : Option α :=
  (l.find? (fun e => e.1 == k)).map (fun e => e.2)

/-- One segment’s rules inside the `segmentation` section. -/
structure SegRules where
  required_subject_keywords : Option (List Text) := none
  required_preview_keywords : Option (List Text) := none
deriving Repr, DecidableEq

/-- One module definition inside the `modules` section (`.get` defaults:
`name` is read with default `"Unknown"` or `""` at the use sites,
`keywords` with default `[]`, `required` with default `True`). -/
structure ModuleRule where
  name : Option Text := none
  keywords : List Text := []
  required : Bool := true
deriving Repr, DecidableEq

/-- The `brand` section. -/
structure BrandRules where
  phone : Option Text := none
  social_handles : Option (List (Text × Text)) := none
  company_info : Option (List (Text × Text)) := none
  from_name : Option Text := none
  from_email : Option Text := none
deriving Repr, DecidableEq

/-- One entry of `dos_and_donts.donts` (the `.get` defaults `phrase=""`,
`reason=""`, `severity="warning"` are folded into the field defaults). -/
structure DontRule where
  phrase : Text := []
  reason : Text := []
  severity : Text := "warning".toList
deriving Repr, DecidableEq

/-- One entry of `dos_and_donts.dos`. -/
structure DoRule where
  phrase : Text := []
  context : Text := []
  check_presence : Bool := false
deriving Repr, DecidableEq

/-- The `dos_and_donts` section. -/
structure DosAndDonts where
  donts : List DontRule := []
  dos : List DoRule := []
deriving Repr, DecidableEq

/-- The `compliance.cta_style` subsection (`case` read with default `""`). -/
structure CtaStyle where
  «case» : Text := []
deriving Repr, DecidableEq

/-- The `compliance` section. -/
structure ComplianceRules where
  required_elements : List Text := []
  cta_style : Option CtaStyle := none
deriving Repr, DecidableEq

/-- A parsed rule document.  `client_name` is `none` when the required key
is missing (checked by `_validate_rules_structure`). -/
structure Rules where
  client_name : Option Text := none
  segmentation : Option (List (Text × SegRules)) := none
  modules : Option (List (Text × List ModuleRule)) := none
  ctas : Option (List (Text × List Text)) := none
  utm_requirements : Option UtmReqs := none
  brand : Option BrandRules := none
  dos_and_donts : Option DosAndDonts := none
  compliance : Option ComplianceRules := none
deriving Repr, DecidableEq

/-- The on-disk state of one client’s rules file. -/
inductive RuleFile
  | absent
  | badJson
  | doc (r : Rules)
deriving Repr, DecidableEq

/-- The two error species of `load_rules`: `FileNotFoundError` for a
missing file, `ValueError` for invalid JSON or a failed structure check. -/
inductive LoadError
  | fileNotFound
  | valueError
deriving Repr, DecidableEq

/-- Normalized client key: `client_name.lower().replace(" ", "_").replace("-", "_")`. -/
def clientKey (client_name : Text) : Text :=
  pyReplace ['-'] ['_'] (pyReplace [' '] ['_'] (pyLower client_name))

/-- Read the store at a key; a key that was never written is an absent file. -/
def lookupFile (store : List (Text × RuleFile)) (key : Text) : RuleFile :=
  match lookupAssoc store key with
  | some f => f
  | none => RuleFile.absent

/-- Source `DynamicRulesEngine._validate_rules_structure`: the only required key is
`client_name`. -/
def validateRulesStructure (r : Rules) : Except LoadError Unit :=
  if r.client_name.isSome then Except.ok () else Except.error LoadError.valueError

/-- Source `DynamicRulesEngine.load_rules` (the cache only memoizes and is not
modelled): a missing file raises `FileNotFoundError`; invalid JSON raises
`ValueError`; a structure-check failure re-raises its `ValueError`. -/
def load_rules (store : List (Text × RuleFile)) (client_name : Text) :
    Except LoadError Rules :=
  match lookupFile store (clientKey client_name) with
  | RuleFile.absent => Except.error LoadError.fileNotFound
  | RuleFile.badJson => Except.error LoadError.valueError
  | RuleFile.doc r =>
    match validateRulesStructure r with
    | Except.ok _ => Except.ok r
    | Except.error e => Except.error e

/-- Source `email_data` as read by the engine (all reads are `.get` with the
defaults shown). -/
structure EmailData where
  subject : Text := []
  preview_text : Text := []
  html_body : Text := []
  text_body : Text := []
  from_name : Text := []
  from_email : Text := []
  links : List VLink := []
  ctas : List VLink := []
  has_unsubscribe : Bool := false
deriving Repr, DecidableEq

/-- A `{required, found, missing}` keyword check record. -/
structure SegCheck where
  required : List Text
  found : List Text
  missing : List Text
deriving Repr, DecidableEq

/-- The result dict of `_validate_segmentation`. -/
structure SegResult where
  segment : Text
  subject_keywords : Option SegCheck := none
  preview_keywords : Option SegCheck := none
  issues : List Text := []
  warnings : List Text := []
deriving Repr, DecidableEq

/-- The result dict of `_validate_modules`. -/
structure ModResult where
  required_modules : List Text := []
  found_modules : List Text := []
  missing_modules : List Text := []
  issues : List Text := []
  warnings : List Text := []
deriving Repr, DecidableEq

/-- The result dict of `_validate_brand`. -/
structure BrandResult where
  brand_checks : List (Text × Bool) := []
  warnings : List Text := []
deriving Repr, DecidableEq

/-- One recorded DON’T violation. -/
structure DontViolation where
  phrase : Text
  reason : Text
  severity : Text
deriving Repr, DecidableEq

/-- The result dict of `_check_dos_and_donts` — note it has NO `issues`
key: every violation lands in `warnings`. -/
structure CopyResult where
  dos_violations : List Text := []
  donts_violations : List DontViolation := []
  warnings : List Text := []
deriving Repr, DecidableEq

/-- The result dict of `_validate_compliance`. -/
structure ComplianceResult where
  compliance_checks : List (Text × Bool) := []
  issues : List Text := []
  warnings : List Text := []
deriving Repr, DecidableEq

/-- A value of the `validations` mapping. -/
inductive SectionOutcome
  | seg (r : SegResult)
  | modules (r : ModResult)
  | brand (r : BrandResult)
  | copywriting (r : CopyResult)
  | compliance (r : ComplianceResult)
deriving Repr, DecidableEq

/-- The dict returned by `validate_against_rules`. -/
structure ValidationResult where
  client : Text
  segment : Option Text
  campaign : Option Text
  passed : Bool
  error : Option Text := none
  issues : List Text
  warnings : List Text
  validations : List (Text × SectionOutcome)
deriving Repr, DecidableEq

/-- Source `DynamicRulesEngine._validate_segmentation`.  A segment whose rules
dict is missing or has none of the modelled keys takes the falsy
`if not segment_rules` branch. -/
def validateSegmentation (email : EmailData)
    (segmentation_rules : List (Text × SegRules)) (segment : Text) : SegResult :=
  let emptyWarn : SegResult :=
    { segment := segment,
      warnings := ["No segmentation rules defined for segment \x27".toList ++ segment
        ++ "\x27".toList] }
  match lookupAssoc segmentation_rules segment with
  | none => emptyWarn
  | some sr =>
    if sr.required_subject_keywords.isNone && sr.required_preview_keywords.isNone then
      emptyWarn
    else
      let r : SegResult := { segment := segment }
      let r :=
        match sr.required_subject_keywords with
        | some keywords =>
          let subject := pyLower email.subject
          let found := keywords.filter (fun kw => occurs (pyLower kw) subject)
          let missing := keywords.filter (fun kw => !occurs (pyLower kw) subject)
          let r := { r with subject_keywords := some ⟨keywords, found, missing⟩ }
          if !missing.isEmpty then
            { r with warnings := r.warnings ++
                ["Subject line missing keywords for ".toList ++ segment ++
                  " segment: ".toList ++ pyReprStrList missing] }
          else r
        | none => r
      match sr.required_preview_keywords with
      | some keywords =>
        let preview := pyLower email.preview_text
        let found := keywords.filter (fun kw => occurs (pyLower kw) preview)
        let missing := keywords.filter (fun kw => !occurs (pyLower kw) preview)
        let r := { r with preview_keywords := some ⟨keywords, found, missing⟩ }
        if !missing.isEmpty then
          { r with warnings := r.warnings ++
              ["Preview text missing keywords for ".toList ++ segment ++
                " segment: ".toList ++ pyReprStrList missing] }
        else r
      | none => r

/-- Truthiness of an optional string argument (`if segment ...`). -/
def optTruthy : Option Text → Bool
  | some s => !s.isEmpty
  | none => false

/-- Source `DynamicRulesEngine._validate_modules`. -/
def validateModules (email : EmailData)
    (module_rules : List (Text × List ModuleRule))
    (segment campaign : Option Text) : ModResult :=
  let required_modules : List ModuleRule :=
    (match segment with
     | some s => if !s.isEmpty then (lookupAssoc module_rules s).getD [] else []
     | none => []) ++
    (match campaign with
     | some s => if !s.isEmpty then (lookupAssoc module_rules s).getD [] else []
     | none => []) ++
    (lookupAssoc module_rules "all".toList).getD []
  if required_modules.isEmpty then
    { warnings := ["No module requirements defined".toList] }
  else
    let full_content := pyLower email.html_body ++ [' '] ++ pyLower email.text_body
    let r : ModResult :=
      { required_modules := required_modules.map (fun m => m.name.getD "Unknown".toList) }
    required_modules.foldl
      (fun r m =>
        let module_name := m.name.getD []
        let found := m.keywords.any (fun kw => occurs (pyLower kw) full_content)
        if found then { r with found_modules := r.found_modules ++ [module_name] }
        else
          let r := { r with missing_modules := r.missing_modules ++ [module_name] }
          if m.required then
            { r with issues := r.issues ++
                ["Required module missing: ".toList ++ module_name] }
          else
            { r with warnings := r.warnings ++
                ["Optional module missing: ".toList ++ module_name] })
      r

/-- Strip the formatting characters Python removes from the rule’s brand
phone (`replace("-","")`, `replace(" ","")`, `replace("(","")`,
`replace(")","")`). -/
def brandPhoneClean (p : Text) : Text :=
  pyReplace [')'] [] (pyReplace ['('] [] (pyReplace [' '] [] (pyReplace ['-'] [] p)))

/-- Strip the characters Python removes from a `tel:` link URL
(`replace("tel:","")`, `replace("-","")`, `replace(" ","")`,
`replace("+","")`). -/
def telUrlClean (u : Text) : Text :=
  pyReplace ['+'] [] (pyReplace [' '] [] (pyReplace ['-'] [] (pyReplace "tel:".toList [] u)))

/-- Source `DynamicRulesEngine._validate_brand`. -/
def validateBrand (email : EmailData) (brand_rules : BrandRules) : BrandResult :=
  let r : BrandResult := {}
  let r :=
    match brand_rules.phone with
    | some required_phone =>
      let phone_links := email.links.filter (fun l => startsWith "tel:".toList l.url)
      let phone_found :=
        phone_links.any (fun l => occurs (brandPhoneClean required_phone) (telUrlClean l.url))
      let r := { r with brand_checks := r.brand_checks ++ [("phone".toList, phone_found)] }
      if !phone_found then
        { r with warnings := r.warnings ++
            ["Brand phone number not found: ".toList ++ required_phone] }
      else r
    | none => r
  let r :=
    match brand_rules.social_handles with
    | some handles =>
      handles.foldl
        (fun r ph =>
          let handle_lower := pyStripSet ['@'] (pyLower ph.2)
          let found := email.links.any (fun l =>
            occurs handle_lower (pyLower l.url) || occurs handle_lower (pyLower l.text))
          let r := { r with
            brand_checks := r.brand_checks ++ [(ph.1 ++ "_handle".toList, found)] }
          if !found then
            { r with warnings := r.warnings ++
                [pyTitle ph.1 ++ " handle not found: @".toList ++ ph.2] }
          else r)
        r
    | none => r
  let r :=
    match brand_rules.company_info with
    | some info =>
      info.foldl
        (fun r kv =>
          if !kv.2.isEmpty && !occurs kv.2 email.html_body then
            { r with warnings := r.warnings ++
                ["Company ".toList ++ kv.1 ++ " not found in email: ".toList ++ kv.2] }
          else r)
        r
    | none => r
  let r :=
    match brand_rules.from_name with
    | some expected =>
      if email.from_name ≠ expected then
        { r with warnings := r.warnings ++
            ["From name mismatch: expected \x27".toList ++ expected ++
              "\x27, got \x27".toList ++ email.from_name ++ "\x27".toList] }
      else r
    | none => r
  match brand_rules.from_email with
  | some expected =>
    if email.from_email ≠ expected then
      { r with warnings := r.warnings ++
          ["From email mismatch: expected \x27".toList ++ expected ++
            "\x27, got \x27".toList ++ email.from_email ++ "\x27".toList] }
    else r
  | none => r

/-- The combined lower-cased copy text of `_check_dos_and_donts`:
`f"{subject} {preview} {html} {text}"`. -/
def copyFullText (email : EmailData) : Text :=
  pyLower email.subject ++ [' '] ++ pyLower email.preview_text ++ [' '] ++
    pyLower email.html_body ++ [' '] ++ pyLower email.text_body

/-- The warning recorded for one DON’T violation. -/
def dontWarningStr (d : DontRule) : Text :=
  "DON\x27T violation (".toList ++ d.severity ++ "): Found \x27".toList ++
    pyLower d.phrase ++ "\x27 - ".toList ++ d.reason

/-- Source `DynamicRulesEngine._check_dos_and_donts`: the result has only
`donts_violations`, `dos_violations` and `warnings` — no `issues`. -/
def checkDosAndDonts (email : EmailData) (dd : DosAndDonts) : CopyResult :=
  let full_text := copyFullText email
  let r : CopyResult := {}
  let r :=
    dd.donts.foldl
      (fun r d =>
        if occurs (pyLower d.phrase) full_text then
          { r with
            donts_violations := r.donts_violations ++
              [⟨pyLower d.phrase, d.reason, d.severity⟩],
            warnings := r.warnings ++ [dontWarningStr d] }
        else r)
      r
  dd.dos.foldl
    (fun r d =>
      if d.check_presence && !(pyLower d.phrase).isEmpty &&
          !occurs (pyLower d.phrase) full_text then
        { r with warnings := r.warnings ++
            ["DO recommendation: Consider including \x27".toList ++ pyLower d.phrase ++
              "\x27 - ".toList ++ d.context] }
      else r)
    r

/-- Source `DynamicRulesEngine._validate_compliance`. -/
def validateCompliance (email : EmailData) (compliance_rules : ComplianceRules) :
    ComplianceResult :=
  let r : ComplianceResult := {}
  let r :=
    compliance_rules.required_elements.foldl
      (fun r element =>
        if element = "unsubscribe_link".toList then
          let has_unsub := email.has_unsubscribe
          let r := { r with
            compliance_checks := r.compliance_checks ++ [("unsubscribe".toList, has_unsub)] }
          if !has_unsub then
            { r with issues := r.issues ++
                ["Missing required unsubscribe link (CAN-SPAM violation)".toList] }
          else r
        else if element = "physical_address".toList then
          let html_lower := pyLower email.html_body
          let has_address := occurs "street".toList html_lower ||
            occurs "pkwy".toList html_lower || occurs "avenue".toList html_lower ||
            occurs "road".toList html_lower
          let r := { r with
            compliance_checks := r.compliance_checks ++
              [("physical_address".toList, has_address)] }
          if !has_address then
            { r with warnings := r.warnings ++
                ["Physical address may be missing (CAN-SPAM requires it)".toList] }
          else r
        else if element = "company_name".toList then
          let has_company := !email.from_name.isEmpty
          let r := { r with
            compliance_checks := r.compliance_checks ++
              [("company_name".toList, has_company)] }
          if !has_company then
            { r with warnings := r.warnings ++
                ["Company name should be clearly visible".toList] }
          else r
        else r)
      r
  match compliance_rules.cta_style with
  | some cta_style =>
    let required_case := cta_style.«case»
    if !required_case.isEmpty then
      email.ctas.foldl
        (fun r cta =>
          if required_case = "UPPERCASE".toList && cta.text ≠ pyUpper cta.text then
            { r with warnings := r.warnings ++
                ["CTA not uppercase: \x27".toList ++ cta.text ++ "\x27".toList] }
          else if required_case = "Title Case".toList && !pyIsTitle cta.text then
            { r with warnings := r.warnings ++
                ["CTA not title case: \x27".toList ++ cta.text ++ "\x27".toList] }
          else r)
        r
    else r
  | none => r

/-- The running issues / warnings / validations accumulator of
`validate_against_rules`. -/
structure Acc where
  issues : List Text := []
  warnings : List Text := []
  validations : List (Text × SectionOutcome) := []
deriving Repr, DecidableEq

/-- The segmentation dispatch (`if "segmentation" in rules and segment`). -/
def segSection (email : EmailData) (sec : Option (List (Text × SegRules)))
    (segment : Option Text) (acc : Acc) : Acc :=
  match sec, segment with
  | some sr, some s =>
    if !s.isEmpty then
      let r := validateSegmentation email sr s
      { acc with
        issues := acc.issues ++ r.issues,
        warnings := acc.warnings ++ r.warnings,
        validations := acc.validations ++ [("segmentation".toList, SectionOutcome.seg r)] }
    else acc
  | _, _ => acc

/-- The modules dispatch. -/
def modSection (email : EmailData) (sec : Option (List (Text × List ModuleRule)))
    (segment campaign : Option Text) (acc : Acc) : Acc :=
  match sec with
  | some mr =>
    let r := validateModules email mr segment campaign
    { acc with
      issues := acc.issues ++ r.issues,
      warnings := acc.warnings ++ r.warnings,
      validations := acc.validations ++ [("modules".toList, SectionOutcome.modules r)] }
  | none => acc

/-- The brand dispatch — NOTE: only warnings are merged, never issues. -/
def brandSection (email : EmailData) (sec : Option BrandRules) (acc : Acc) : Acc :=
  match sec with
  | some br =>
    let r := validateBrand email br
    { acc with
      warnings := acc.warnings ++ r.warnings,
      validations := acc.validations ++ [("brand".toList, SectionOutcome.brand r)] }
  | none => acc

/-- The dos-and-donts dispatch — NOTE: only warnings are merged, never
issues (`validate_against_rules` lines 198–204 extend `results["warnings"]`
only, and the copy result has no `issues` key at all). -/
def copySection (email : EmailData) (sec : Option DosAndDonts) (acc : Acc) : Acc :=
  match sec with
  | some dd =>
    let r := checkDosAndDonts email dd
    { acc with
      warnings := acc.warnings ++ r.warnings,
      validations := acc.validations ++
        [("copywriting".toList, SectionOutcome.copywriting r)] }
  | none => acc

/-- The compliance dispatch. -/
def complianceSection (email : EmailData) (sec : Option ComplianceRules) (acc : Acc) : Acc :=
  match sec with
  | some cr =>
    let r := validateCompliance email cr
    { acc with
      issues := acc.issues ++ r.issues,
      warnings := acc.warnings ++ r.warnings,
      validations := acc.validations ++
        [("compliance".toList, SectionOutcome.compliance r)] }
  | none => acc

/-- The section chain of `validate_against_rules`, in source order. -/
def runValidations (email : EmailData) (rules : Rules)
    (segment campaign : Option Text) : Acc :=
  complianceSection email rules.compliance
    (copySection email rules.dos_and_donts
      (brandSection email rules.brand
        (modSection email rules.modules segment campaign
          (segSection email rules.segmentation segment {}))))

/-- The successful-load body of `validate_against_rules`. -/
def validateWithRules (email : EmailData) (rules : Rules) (client_name : Text)
    (segment campaign : Option Text) : ValidationResult :=
  let acc := runValidations email rules segment campaign
  { client := client_name, segment := segment, campaign := campaign,
    passed := acc.issues.isEmpty, error := none,
    issues := acc.issues, warnings := acc.warnings, validations := acc.validations }

/-- Source `DynamicRulesEngine.validate_against_rules`: a missing rules file is
caught and turned into a degraded result; a `ValueError` from `load_rules`
propagates. -/
def validate_against_rules (store : List (Text × RuleFile)) (email : EmailData)
    (client_name : Text) (segment campaign : Option Text) :
    Except LoadError ValidationResult :=
  match load_rules store client_name with
  | Except.error LoadError.fileNotFound =>
    Except.ok
      { client := client_name, segment := segment, campaign := campaign,
        passed := false,
        error := some ("No rules file found for client \x27".toList ++ client_name ++
          "\x27".toList),
        issues := ["No rules configured for client \x27".toList ++ client_name ++
          "\x27".toList],
        warnings := [], validations := [] }
  | Except.error e => Except.error e
  | Except.ok rules => Except.ok (validateWithRules email rules client_name segment campaign)

/-- Source `DynamicRulesEngine.get_required_ctas`: a missing rules file yields
`[]`; a `ValueError` propagates; a non-empty segment with its own entry
shadows `"all"`. -/
def get_required_ctas (store : List (Text × RuleFile)) (client_name : Text)
    (segment : Option Text) : Except LoadError (List Text) :=
  match load_rules store client_name with
  | Except.error LoadError.fileNotFound => Except.ok []
  | Except.error e => Except.error e
  | Except.ok rules =>
    match rules.ctas with
    | none => Except.ok []
    | some ctas =>
      let segHit : Option (List Text) :=
        match segment with
        | some s => if !s.isEmpty then lookupAssoc ctas s else none
        | none => none
      match segHit with
      | some l => Except.ok l
      | none => Except.ok ((lookupAssoc ctas "all".toList).getD [])

/-! ## Claims about the rules engine -/

theorem copySection_issues (email : EmailData) (sec : Option DosAndDonts) (acc : Acc) :
    (copySection email sec acc).issues = acc.issues := by
  cases sec <;> rfl

theorem complianceSection_issues (email : EmailData) (sec : Option ComplianceRules)
    (acc : Acc) :
    (complianceSection email sec acc).issues =
      acc.issues ++
        (match sec with
         | some cr => (validateCompliance email cr).issues
         | none => []) := by
  cases sec with
  | none => simp [complianceSection]
  | some cr => rfl

theorem complianceSection_warnings_mono (email : EmailData)
    (sec : Option ComplianceRules) (acc : Acc) :
    ∃ tail, (complianceSection email sec acc).warnings = acc.warnings ++ tail := by
  cases sec with
  | none => exact ⟨[], by simp [complianceSection]⟩
  | some cr => exact ⟨(validateCompliance email cr).warnings, rfl⟩

theorem foldl_proj_mono {A B : Type} (f : A -> B -> A) (g : A -> List Text)
    (hf : ∀ r b, ∃ t, g (f r b) = g r ++ t) :
    ∀ (l : List B) (acc : A), ∃ tail, g (l.foldl f acc) = g acc ++ tail := by
  intro l
  induction l with
  | nil => intro acc; exact ⟨[], by simp⟩
  | cons b bs ih =>
    intro acc
    rw [List.foldl_cons]
    obtain ⟨t1, h1⟩ := hf acc b
    obtain ⟨t2, h2⟩ := ih (f acc b)
    exact ⟨t1 ++ t2, by rw [h2, h1, List.append_assoc]⟩

theorem foldl_proj_mem {A B : Type} (f : A -> B -> A) (g : A -> List Text)
    (hf : ∀ r b, ∃ t, g (f r b) = g r ++ t)
    (l : List B) (acc : A) (x : Text) (hx : x ∈ g acc) : x ∈ g (l.foldl f acc) := by
  obtain ⟨tail, htail⟩ := foldl_proj_mono f g hf l acc
  rw [htail]
  exact List.mem_append_left tail hx

theorem foldl_proj_mem_of_elem {A B : Type} (f : A -> B -> A) (g : A -> List Text)
    (hf : ∀ r b, ∃ t, g (f r b) = g r ++ t)
    (l : List B) (b : B) (hb : b ∈ l) (x : Text)
    (hx : ∀ r : A, x ∈ g (f r b)) :
    ∀ acc, x ∈ g (l.foldl f acc) := by
  induction l with
  | nil => exact absurd hb (List.not_mem_nil b)
  | cons c cs ih =>
    intro acc
    rw [List.foldl_cons]
    rcases List.mem_cons.mp hb with heq | hmem
    · subst heq
      exact foldl_proj_mem f g hf cs (f acc b) x (hx acc)
    · exact ih hmem (f acc c)

theorem checkDosAndDonts_dont_warning (email : EmailData) (dd : DosAndDonts)
    (d : DontRule) (hd : d ∈ dd.donts)
    (hocc : occurs (pyLower d.phrase) (copyFullText email) = true) :
    dontWarningStr d ∈ (checkDosAndDonts email dd).warnings := by
  unfold checkDosAndDonts
  have hfDont : ∀ (r : CopyResult) (x : DontRule), ∃ t,
      ((fun (r : CopyResult) (d : DontRule) =>
        if occurs (pyLower d.phrase) (copyFullText email) then
          { r with
            donts_violations := r.donts_violations ++
              [⟨pyLower d.phrase, d.reason, d.severity⟩],
            warnings := r.warnings ++ [dontWarningStr d] }
        else r) r x).warnings = r.warnings ++ t := by
    intro r x
    by_cases h : occurs (pyLower x.phrase) (copyFullText email)
    · exact ⟨[dontWarningStr x], by simp [h]⟩
    · exact ⟨[], by simp [h]⟩
  have hfDo : ∀ (r : CopyResult) (x : DoRule), ∃ t,
      ((fun (r : CopyResult) (d : DoRule) =>
        if d.check_presence && !(pyLower d.phrase).isEmpty &&
            !occurs (pyLower d.phrase) (copyFullText email) then
          { r with warnings := r.warnings ++
              ["DO recommendation: Consider including \x27".toList ++ pyLower d.phrase ++
                "\x27 - ".toList ++ d.context] }
        else r) r x).warnings = r.warnings ++ t := by
    intro r x
    by_cases h : (x.check_presence && !(pyLower x.phrase).isEmpty &&
        !occurs (pyLower x.phrase) (copyFullText email)) = true
    · exact ⟨["DO recommendation: Consider including \x27".toList ++ pyLower x.phrase ++
        "\x27 - ".toList ++ x.context], by simp [h]⟩
    · exact ⟨[], by simp [h]⟩
  apply foldl_proj_mem _ _ hfDo
  apply foldl_proj_mem_of_elem _ _ hfDont dd.donts d hd
  intro r
  simp [hocc]

/-- Claim C1 (amended): A declared DON’T phrase (here with severity
`"error"`) present in the combined lower-cased copy text contributes its
formatted violation entry to the WARNINGS list of the validation result,
and contributes NOTHING to the issues list: the issues are exactly those of
the same validation run with the dos-and-donts section removed
(`validate_against_rules` merges only `copy_result["warnings"]`, and the
copy result has no issues at all), so an error-severity DON’T never blocks. -/
theorem C1_dont_error_warning_not_issue (email : EmailData) (rules : Rules)
    (client_name : Text) (segment campaign : Option Text)
    (dd : DosAndDonts) (d : DontRule)
    (hdd : rules.dos_and_donts = some dd) (hd : d ∈ dd.donts)
    (hsev : d.severity = "error".toList)
    (hocc : occurs (pyLower d.phrase) (copyFullText email) = true) :
    dontWarningStr d ∈ (validateWithRules email rules client_name segment campaign).warnings ∧
      (validateWithRules email rules client_name segment campaign).issues =
        (validateWithRules email { rules with dos_and_donts := none }
          client_name segment campaign).issues := by
  obtain ⟨cn, sg, md, ct, utm, br, ddf, cp⟩ := rules
  simp only [Rules.dos_and_donts] at hdd
  subst hdd
  constructor
  · show dontWarningStr d ∈ (runValidations email _ segment campaign).warnings
    unfold runValidations
    simp only [Rules.compliance, Rules.dos_and_donts, Rules.brand, Rules.modules,
      Rules.segmentation]
    obtain ⟨tail, htail⟩ := complianceSection_warnings_mono email cp
      (copySection email (some dd)
        (brandSection email br
          (modSection email md segment campaign
            (segSection email sg segment {}))))
    rw [htail]
    refine List.mem_append_left tail ?_
    show dontWarningStr d ∈
      ((brandSection email br (modSection email md segment campaign
        (segSection email sg segment {}))).warnings ++
        (checkDosAndDonts email dd).warnings)
    exact List.mem_append_right _ (checkDosAndDonts_dont_warning email dd d hd hocc)
  · show (runValidations email _ segment campaign).issues =
      (runValidations email _ segment campaign).issues
    unfold runValidations
    simp only [Rules.compliance, Rules.dos_and_donts, Rules.brand, Rules.modules,
      Rules.segmentation]
    rw [complianceSection_issues, complianceSection_issues,
      copySection_issues, copySection_issues]

/-- Concrete data for the C1 instances. -/
def c1dont : DontRule := ⟨"buy now".toList, "pushy".toList, "error".toList⟩

/-- A rule document whose only section is a single error-severity DON’T. -/
def c1rules : Rules :=
  { client_name := some "Acme".toList,
    dos_and_donts := some ⟨[c1dont], []⟩ }

/-- A one-file store for the C1 instances. -/
def c1store : List (Text × RuleFile) := [("acme".toList, RuleFile.doc c1rules)]

/-- An email whose HTML body contains the forbidden phrase. -/
def c1email : EmailData := { html_body := "please BUY now today".toList }

/-- Witness for `C1_dont_error_warning_not_issue` at the concrete C1 data. -/
theorem C1_dont_error_warning_not_issue_witness :
    dontWarningStr c1dont ∈
        (validateWithRules c1email c1rules "acme".toList none none).warnings ∧
      (validateWithRules c1email c1rules "acme".toList none none).issues =
        (validateWithRules c1email { c1rules with dos_and_donts := none }
          "acme".toList none none).issues :=
  C1_dont_error_warning_not_issue c1email c1rules "acme".toList none none
    ⟨[c1dont], []⟩ c1dont rfl (by decide) (by decide) (by decide)

/-- Claim C1 (counterexample): Validating an email containing an
error-severity DON’T phrase against a schema whose only section is that
DON’T: the result has EMPTY issues and `passed = true`, while the violation
(at its declared severity) sits in the warnings list — so an error-severity
DON’T phrase does NOT contribute a blocking issue as claimed. -/
theorem C1_counterexample :
    (validate_against_rules c1store c1email "acme".toList none none).toOption.map
        (fun r => (r.issues, r.passed, r.warnings.contains (dontWarningStr c1dont))) =
      some ([], true, true) := by
  decide

/-- Claim C6 (confirmed): Validation for a client with no rules file does not
raise: it returns a degraded result with `passed = false`, exactly one
explanatory issue naming the client, empty warnings and an empty
validations mapping. -/
theorem C6_missing_rules_degraded (store : List (Text × RuleFile)) (email : EmailData)
    (client_name : Text) (segment campaign : Option Text)
    (h : lookupFile store (clientKey client_name) = RuleFile.absent) :
    validate_against_rules store email client_name segment campaign =
      Except.ok
        { client := client_name, segment := segment, campaign := campaign,
          passed := false,
          error := some ("No rules file found for client \x27".toList ++ client_name ++
            "\x27".toList),
          issues := ["No rules configured for client \x27".toList ++ client_name ++
            "\x27".toList],
          warnings := [], validations := [] } := by
  unfold validate_against_rules load_rules
  rw [h]

/-- Witness for `C6_missing_rules_degraded` on an empty store. -/
theorem C6_missing_rules_degraded_witness :
    validate_against_rules [] {} "acme".toList none none =
      Except.ok
        { client := "acme".toList, segment := none, campaign := none,
          passed := false,
          error := some ("No rules file found for client \x27".toList ++ "acme".toList ++
            "\x27".toList),
          issues := ["No rules configured for client \x27".toList ++ "acme".toList ++
            "\x27".toList],
          warnings := [], validations := [] } :=
  C6_missing_rules_degraded [] {} "acme".toList none none (by decide)

/-- Claim C7 (confirmed): A rule document that is invalid JSON, or parses but
lacks the required `client_name` key, makes `load_rules` raise a
`ValueError` that `validate_against_rules` does not catch (it catches only
`FileNotFoundError`): the error propagates to the caller instead of being
recovered into a degraded result. -/
theorem C7_malformed_rules_propagate (store : List (Text × RuleFile)) (email : EmailData)
    (client_name : Text) (segment campaign : Option Text)
    (h : lookupFile store (clientKey client_name) = RuleFile.badJson ∨
      ∃ r, lookupFile store (clientKey client_name) = RuleFile.doc r ∧
        r.client_name = none) :
    load_rules store client_name = Except.error LoadError.valueError ∧
      validate_against_rules store email client_name segment campaign =
        Except.error LoadError.valueError := by
  have hl : load_rules store client_name = Except.error LoadError.valueError := by
    unfold load_rules
    rcases h with h | ⟨r, h, hr⟩
    · rw [h]
    · rw [h]
      simp [validateRulesStructure, hr]
  refine ⟨hl, ?_⟩
  unfold validate_against_rules
  rw [hl]

/-- Witness for `C7_malformed_rules_propagate` on a store holding an
invalid-JSON rules file. -/
theorem C7_malformed_rules_propagate_witness :
    load_rules [("acme".toList, RuleFile.badJson)] "acme".toList =
        Except.error LoadError.valueError ∧
      validate_against_rules [("acme".toList, RuleFile.badJson)] {} "acme".toList none none =
        Except.error LoadError.valueError :=
  C7_malformed_rules_propagate [("acme".toList, RuleFile.badJson)] {} "acme".toList
    none none (Or.inl (by decide))

/-- Claim C10 (amended): Required-CTA resolution shadows rather than unions,
with the proviso that only a NON-EMPTY requested segment can shadow: when
the segment is non-empty and has its own entry, exactly that entry is
returned and `"all"` is ignored; when the segment is empty, absent from the
section, or not given, the `"all"` entry (or `[]`) is returned; a schema
without a `ctas` section, or a missing rules file, yields `[]`.  (The
original claim fails for an empty-string segment with its own entry, see
`C10_counterexample`.) -/
theorem C10_cta_resolution (store : List (Text × RuleFile)) (client_name : Text)
    (segment : Option Text) :
    (∀ rules m s l, load_rules store client_name = Except.ok rules →
        rules.ctas = some m → segment = some s → s ≠ [] → lookupAssoc m s = some l →
        get_required_ctas store client_name segment = Except.ok l) ∧
    (∀ rules m, load_rules store client_name = Except.ok rules →
        rules.ctas = some m →
        (match segment with
         | some s => s = [] ∨ lookupAssoc m s = none
         | none => True) →
        get_required_ctas store client_name segment =
          Except.ok ((lookupAssoc m "all".toList).getD [])) ∧
    (∀ rules, load_rules store client_name = Except.ok rules → rules.ctas = none →
        get_required_ctas store client_name segment = Except.ok []) ∧
    (load_rules store client_name = Except.error LoadError.fileNotFound →
        get_required_ctas store client_name segment = Except.ok []) := by
  refine ⟨?_, ?_, ?_, ?_⟩
  · intro rules m s l hload hctas hseg hne hlook
    have hs : (!s.isEmpty) = true := by
      cases s with
      | nil => exact absurd rfl hne
      | cons a as => rfl
    unfold get_required_ctas
    rw [hload]
    simp only [hctas, hseg, hs, if_true, hlook]
  · intro rules m hload hctas hmiss
    unfold get_required_ctas
    rw [hload]
    cases segment with
    | none => simp only [hctas]
    | some s =>
      rcases hmiss with hnil | hnone
      · subst hnil
        simp only [hctas]
        rfl
      · by_cases hs : s.isEmpty
        · have hnil : s = [] := by
            cases s with
            | nil => rfl
            | cons a as => simp [List.isEmpty] at hs
          subst hnil
          simp only [hctas]
          rfl
        · have hs' : (!s.isEmpty) = true := by simp [hs]
          simp only [hctas, hs', if_true, hnone]
  · intro rules hload hctas
    unfold get_required_ctas
    rw [hload]
    simp only [hctas]
  · intro hload
    unfold get_required_ctas
    rw [hload]

/-- Concrete data for the C10 instances: a `ctas` section with an
empty-string segment key and an `"all"` key. -/
def c10rules : Rules :=
  { client_name := some "A".toList,
    ctas := some [([], ["X".toList]), ("all".toList, ["Y".toList]),
      ("prospects".toList, ["P".toList])] }

/-- A one-file store for the C10 instances. -/
def c10store : List (Text × RuleFile) := [("acme".toList, RuleFile.doc c10rules)]

/-- Witness for `C10_cta_resolution` at the concrete store: the non-empty
segment `"prospects"` shadows `"all"`. -/
theorem C10_cta_resolution_witness :
    get_required_ctas c10store "acme".toList (some "prospects".toList) =
      Except.ok ["P".toList] :=
  (C10_cta_resolution c10store "acme".toList (some "prospects".toList)).1
    c10rules [([], ["X".toList]), ("all".toList, ["Y".toList]),
      ("prospects".toList, ["P".toList])] "prospects".toList ["P".toList]
    rfl rfl rfl (by decide) rfl

/-- Claim C10 (counterexample): The empty-string segment has its own entry
(`["X"]`), but the Python truthiness test `if segment and segment in ctas`
makes it fall through to `"all"`: the call returns `["Y"]`, not the
segment’s own list as claimed. -/
theorem C10_counterexample :
    get_required_ctas c10store "acme".toList (some []) = Except.ok ["Y".toList] ∧
      lookupAssoc [(([] : Text), ["X".toList]), ("all".toList, ["Y".toList]),
        ("prospects".toList, ["P".toList])] [] = some ["X".toList] ∧
      (["Y".toList] : List Text) ≠ ["X".toList] := by
  refine ⟨rfl, rfl, by decide⟩

/-! ## `LinkValidatorTool` (`email_qa/tools/link_validator.py`)

Only the pure validators are modelled (`_validate_utm_params`,
`_validate_phone_numbers`, `_normalize_phone`); the HTTP status probe is an
outward network call outside any claim. -/

/-- An entry of `links_missing_utm`. -/
structure MissingUtmEntry where
  url : Text
  text : Text
  missing : List Text
deriving Repr, DecidableEq

/-- An entry of `links_with_utm`. -/
structure WithUtmEntry where
  url : Text
  text : Text
  params : List (Text × Text)
deriving Repr, DecidableEq

/-- An entry of `utm_errors`. -/
structure UtmErrorEntry where
  url : Text
  param : Text
  expected : Text
  actual : Text
deriving Repr, DecidableEq

/-- The result dict of `_validate_utm_params`. -/
structure UtmValidation where
  links_with_utm : List WithUtmEntry := []
  links_missing_utm : List MissingUtmEntry := []
  utm_errors : List UtmErrorEntry := []
  issues : List Text := []
  warnings : List Text := []
deriving Repr, DecidableEq

/-- The skip test `url.startswith(("mailto:", "tel:", "#"))`. -/
def utmSkip (url : Text) : Bool :=
  startsWith "mailto:".toList url || startsWith "tel:".toList url ||
    startsWith "#".toList url

/-- The required UTM keys absent from one link’s `utm_params` dict. -/
def missingParamsOf (required_params : List Text) (l : VLink) : List Text :=
  required_params.filter (fun p => (lookupAssoc l.utm_params ("utm_".toList ++ p)).isNone)

/-- Source `f"Link missing UTM params {missing_params}: {link.get(’text’)}"`. -/
def missingWarningStr (l : VLink) (missing : List Text) : Text :=
  "Link missing UTM params ".toList ++ pyReprStrList missing ++ ": ".toList ++ l.text

/-- Source `f"UTM param mismatch on {text}: utm_{param} should be ’{exp}’, got ’{act}’"`. -/
def utmMismatchStr (l : VLink) (param expected actual : Text) : Text :=
  "UTM param mismatch on ".toList ++ l.text ++ ": utm_".toList ++ param ++
    " should be \x27".toList ++ expected ++ "\x27, got \x27".toList ++ actual ++
    "\x27".toList

/-- The `expected_values` loop body of `_validate_utm_params`: a parameter
that is present with a truthy (non-empty) value differing from the expected
one records a `utm_errors` entry and an issue. -/
def utmValuesStep (l : VLink) (acc : UtmValidation) (pe : Text × Text) : UtmValidation :=
  match lookupAssoc l.utm_params ("utm_".toList ++ pe.1) with
  | some actual =>
    if !actual.isEmpty && actual ≠ pe.2 then
      { acc with
        utm_errors := acc.utm_errors ++ [⟨l.url, pe.1, pe.2, actual⟩],
        issues := acc.issues ++ [utmMismatchStr l pe.1 pe.2 actual] }
    else acc
  | none => acc

/-- The per-link body of `_validate_utm_params`: skip `mailto:`/`tel:`/`#`
links; with non-empty `required_params`, missing keys yield a WARNING (and a
`links_missing_utm` entry), then the expected-values loop runs. -/
def utmLinkStep (required_params : List Text) (expected_values : List (Text × Text))
    (acc : UtmValidation) (l : VLink) : UtmValidation :=
  if utmSkip l.url then acc
  else if required_params.isEmpty then acc
  else
    let missing := missingParamsOf required_params l
    let acc :=
      if !missing.isEmpty then
        { acc with
          links_missing_utm := acc.links_missing_utm ++ [⟨l.url, l.text, missing⟩],
          warnings := acc.warnings ++ [missingWarningStr l missing] }
      else
        { acc with links_with_utm := acc.links_with_utm ++ [⟨l.url, l.text, l.utm_params⟩] }
    expected_values.foldl (utmValuesStep l) acc

/-- Source `LinkValidatorTool._validate_utm_params`. -/
def validateUtmParams (links : List VLink) (utm_requirements : UtmReqs) : UtmValidation :=
  links.foldl (utmLinkStep utm_requirements.required_params utm_requirements.expected_values) {}

/-- Source `LinkValidatorTool._normalize_phone`: strip non-digits, then drop a
leading `1` from an 11-digit number. -/
def normalizePhone (phone : Text) : Text :=
  let digits_only := phone.filter Char.isDigit
  if digits_only.length = 11 && startsWith "1".toList digits_only then
    digits_only.drop 1
  else digits_only

/-- An entry of `phone_links`. -/
structure PhoneEntry where
  text : Text
  phone : Text
  url : Text
deriving Repr, DecidableEq

/-- The result dict of `_validate_phone_numbers`. -/
structure PhoneValidation where
  phone_links : List PhoneEntry := []
  issues : List Text := []
  warnings : List Text := []
deriving Repr, DecidableEq

/-- Source `[-.]` of the phone text regex. -/
def phoneSep (c : Char) : Bool := c == '-' || c == '.'

/-- Exactly `n` digits from the head of `t`. -/
def takeDigits : Nat → Text → Option (Text × Text)
  | 0, t => some ([], t)
  | _ + 1, [] => none
  | n + 1, c :: cs =>
    if c.isDigit then (takeDigits n cs).map (fun pr => (c :: pr.1, pr.2)) else none

/-- One alternative of `\d{3}[-.]?\d{3}[-.]?\d{4}` (optional separators
fixed to present/absent). -/
def tryPhone (s1 s2 : Bool) (t : Text) : Option (Text × Text) :=
  (takeDigits 3 t).bind fun pr1 =>
  (if s1 then
      match pr1.2 with
      | c :: cs => if phoneSep c then some ([c], cs) else none
      | [] => none
    else some ([], pr1.2)).bind fun pr2 =>
  (takeDigits 3 pr2.2).bind fun pr3 =>
  (if s2 then
      match pr3.2 with
      | c :: cs => if phoneSep c then some ([c], cs) else none
      | [] => none
    else some ([], pr3.2)).bind fun pr4 =>
  (takeDigits 4 pr4.2).map fun pr5 =>
    (pr1.1 ++ pr2.1 ++ pr3.1 ++ pr4.1 ++ pr5.1, pr5.2)

/-- Source `\d{3}[-.]?\d{3}[-.]?\d{4}` anchored at the head, alternatives in the
greedy backtracking order of `re` (separator present before absent). -/
def matchPhoneAt (t : Text) : Option (Text × Text) :=
  match tryPhone true true t with
  | some r => some r
  | none =>
    match tryPhone true false t with
    | some r => some r
    | none =>
      match tryPhone false true t with
      | some r => some r
      | none => tryPhone false false t

/-- Fuel-driven `re.findall` of the phone pattern (non-overlapping, left to
right; each step consumes at least one character). -/
def findTextPhonesFuel : Nat → Text → List Text
  | _, [] => []
  | 0, _ => []
  | Nat.succ n, c :: cs =>
    match matchPhoneAt (c :: cs) with
    | some (m, rest) => m :: findTextPhonesFuel n rest
    | none => findTextPhonesFuel n cs

/-- Source `re.findall(r’\d{3}[-.]?\d{3}[-.]?\d{4}’, text)`. -/
def findTextPhones (t : Text) : List Text := findTextPhonesFuel t.length t

/-- The per-link body of `_validate_phone_numbers`: a `tel:` link records
its normalized phone (a mismatch is an ISSUE); phone-like tokens in the
link text are scanned for every link (a mismatch is a WARNING). -/
def phoneLinkStep (required_phone required_normalized : Text)
    (acc : PhoneValidation) (l : VLink) : PhoneValidation :=
  let acc :=
    if startsWith "tel:".toList l.url then
      let phone_raw := pyReplace "tel:".toList [] l.url
      let phone_normalized := normalizePhone phone_raw
      let acc := { acc with
        phone_links := acc.phone_links ++ [⟨l.text, phone_normalized, l.url⟩] }
      if phone_normalized ≠ required_normalized then
        { acc with issues := acc.issues ++
            ["Phone number mismatch: Expected ".toList ++ required_phone ++
              ", found ".toList ++ phone_raw ++ " in \x27".toList ++ l.text ++
              "\x27".toList] }
      else acc
    else acc
  (findTextPhones l.text).foldl
    (fun acc m =>
      if normalizePhone m ≠ required_normalized then
        { acc with warnings := acc.warnings ++
            ["Phone in text doesn\x27t match: ".toList ++ m ++ " vs ".toList ++
              required_phone] }
      else acc)
    acc

/-- Source `LinkValidatorTool._validate_phone_numbers`. -/
def validatePhoneNumbers (links : List VLink) (required_phone : Text) : PhoneValidation :=
  if required_phone.isEmpty then {}
  else
    let required_normalized := normalizePhone required_phone
    let acc := links.foldl (phoneLinkStep required_phone required_normalized) {}
    if !required_normalized.isEmpty &&
        !(acc.phone_links.map (fun p => p.phone)).contains required_normalized then
      { acc with issues := acc.issues ++
          ["Required phone number not found: ".toList ++ required_phone] }
    else acc

/-! ## Claims about the link validator -/

theorem foldl_inv {A B : Type} (f : A → B → A) (P : A → Prop)
    (hf : ∀ a b, P a → P (f a b)) :
    ∀ (l : List B) (a : A), P a → P (l.foldl f a) := by
  intro l
  induction l with
  | nil => intro a ha; exact ha
  | cons b bs ih => intro a ha; exact ih (f a b) (hf a b ha)

theorem utmValuesStep_warnings (l : VLink) (acc : UtmValidation) (pe : Text × Text) :
    (utmValuesStep l acc pe).warnings = acc.warnings := by
  unfold utmValuesStep
  cases lookupAssoc l.utm_params ("utm_".toList ++ pe.1) with
  | none => rfl
  | some actual =>
    by_cases h1 : actual = []
    · simp [h1]
    · by_cases h2 : actual = pe.2 <;> simp [h1, h2]

theorem utmValuesFold_warnings (l : VLink) (ev : List (Text × Text)) :
    ∀ acc : UtmValidation, (ev.foldl (utmValuesStep l) acc).warnings = acc.warnings := by
  induction ev with
  | nil => intro acc; rfl
  | cons pe pes ih =>
    intro acc
    rw [List.foldl_cons, ih, utmValuesStep_warnings]

theorem utmValuesStep_issues_mono (l : VLink) (acc : UtmValidation) (pe : Text × Text) :
    ∃ t, (utmValuesStep l acc pe).issues = acc.issues ++ t := by
  unfold utmValuesStep
  cases lookupAssoc l.utm_params ("utm_".toList ++ pe.1) with
  | none => exact ⟨[], by simp⟩
  | some actual =>
    by_cases h1 : actual = []
    · exact ⟨[], by simp [h1]⟩
    · by_cases h2 : actual = pe.2
      · exact ⟨[], by simp [h1, h2]⟩
      · exact ⟨[utmMismatchStr l pe.1 pe.2 actual], by simp [h1, h2]⟩

theorem utmLinkStep_warnings_mono (rp : List Text) (ev : List (Text × Text))
    (acc : UtmValidation) (l : VLink) :
    ∃ t, (utmLinkStep rp ev acc l).warnings = acc.warnings ++ t := by
  simp only [utmLinkStep]
  split_ifs with h1 h2 h3
  · exact ⟨[], by simp⟩
  · exact ⟨[], by simp⟩
  · exact ⟨[missingWarningStr l (missingParamsOf rp l)], by rw [utmValuesFold_warnings]⟩
  · exact ⟨[], by rw [utmValuesFold_warnings]; simp⟩

theorem utmLinkStep_issues_mono (rp : List Text) (ev : List (Text × Text))
    (acc : UtmValidation) (l : VLink) :
    ∃ t, (utmLinkStep rp ev acc l).issues = acc.issues ++ t := by
  simp only [utmLinkStep]
  split_ifs with h1 h2 h3
  · exact ⟨[], by simp⟩
  · exact ⟨[], by simp⟩
  · obtain ⟨t, ht⟩ := foldl_proj_mono (utmValuesStep l) (fun a => a.issues)
      (fun a b => utmValuesStep_issues_mono l a b) ev
      { acc with
        links_missing_utm := acc.links_missing_utm ++
          [⟨l.url, l.text, missingParamsOf rp l⟩],
        warnings := acc.warnings ++ [missingWarningStr l (missingParamsOf rp l)] }
    exact ⟨t, ht⟩
  · obtain ⟨t, ht⟩ := foldl_proj_mono (utmValuesStep l) (fun a => a.issues)
      (fun a b => utmValuesStep_issues_mono l a b) ev
      { acc with links_with_utm := acc.links_with_utm ++ [⟨l.url, l.text, l.utm_params⟩] }
    exact ⟨t, ht⟩

theorem utmLinkStep_missing_warning (rp : List Text) (ev : List (Text × Text))
    (acc : UtmValidation) (l : VLink)
    (hskip : utmSkip l.url = false) (hrp : rp.isEmpty = false)
    (hmiss : (missingParamsOf rp l).isEmpty = false) :
    missingWarningStr l (missingParamsOf rp l) ∈ (utmLinkStep rp ev acc l).warnings := by
  simp only [utmLinkStep, hskip, hrp, hmiss, Bool.false_eq_true, if_false, Bool.not_false,
    if_true]
  rw [utmValuesFold_warnings]
  simp

theorem utmLinkStep_mismatch_issue (rp : List Text) (ev : List (Text × Text))
    (acc : UtmValidation) (l : VLink) (p exp act : Text)
    (hskip : utmSkip l.url = false) (hrp : rp.isEmpty = false)
    (hpe : (p, exp) ∈ ev)
    (hlook : lookupAssoc l.utm_params ("utm_".toList ++ p) = some act)
    (hne1 : act ≠ []) (hne2 : act ≠ exp) :
    utmMismatchStr l p exp act ∈ (utmLinkStep rp ev acc l).issues := by
  have hstep : ∀ r : UtmValidation,
      utmMismatchStr l p exp act ∈ (utmValuesStep l r (p, exp)).issues := by
    intro r
    unfold utmValuesStep
    rw [hlook]
    cases act with
    | nil => exact absurd rfl hne1
    | cons a as => simp [hne2]
  have main : ∀ acc0 : UtmValidation,
      utmMismatchStr l p exp act ∈ (ev.foldl (utmValuesStep l) acc0).issues :=
    foldl_proj_mem_of_elem (utmValuesStep l) (fun a => a.issues)
      (fun a b => utmValuesStep_issues_mono l a b) ev (p, exp) hpe _ hstep
  simp only [utmLinkStep, hskip, hrp, Bool.false_eq_true, if_false]
  split_ifs <;> exact main _

theorem utmValuesStep_issue_shape (l : VLink) (acc : UtmValidation) (pe : Text × Text)
    (h : ∀ e ∈ acc.issues, ∃ rest, e = "UTM param mismatch on ".toList ++ rest) :
    ∀ e ∈ (utmValuesStep l acc pe).issues,
      ∃ rest, e = "UTM param mismatch on ".toList ++ rest := by
  intro e he
  unfold utmValuesStep at he
  cases hlk : lookupAssoc l.utm_params ("utm_".toList ++ pe.1) with
  | none => exact h e (by rwa [hlk] at he)
  | some actual =>
    rw [hlk] at he
    by_cases h1 : actual = []
    · simp [h1] at he
      exact h e he
    · by_cases h2 : actual = pe.2
      · simp [h1, h2] at he
        exact h e he
      · simp [h1, h2] at he
        rcases he with he | he
        · exact h e he
        · exact ⟨l.text ++ ": utm_".toList ++ pe.1 ++ " should be \x27".toList ++ pe.2 ++
            "\x27, got \x27".toList ++ actual ++ "\x27".toList, by
              rw [he]; unfold utmMismatchStr; simp [List.append_assoc]⟩

theorem utmLinkStep_issue_shape (rp : List Text) (ev : List (Text × Text))
    (acc : UtmValidation) (l : VLink)
    (h : ∀ e ∈ acc.issues, ∃ rest, e = "UTM param mismatch on ".toList ++ rest) :
    ∀ e ∈ (utmLinkStep rp ev acc l).issues,
      ∃ rest, e = "UTM param mismatch on ".toList ++ rest := by
  have hfold : ∀ acc0 : UtmValidation,
      (∀ e ∈ acc0.issues, ∃ rest, e = "UTM param mismatch on ".toList ++ rest) →
      ∀ e ∈ (ev.foldl (utmValuesStep l) acc0).issues,
        ∃ rest, e = "UTM param mismatch on ".toList ++ rest := by
    intro acc0 h0
    exact foldl_inv (utmValuesStep l)
      (fun a => ∀ e ∈ a.issues, ∃ rest, e = "UTM param mismatch on ".toList ++ rest)
      (fun a b ha => utmValuesStep_issue_shape l a b ha) ev acc0 h0
  simp only [utmLinkStep]
  split_ifs with h1 h2 h3
  · exact h
  · exact h
  · exact hfold _ h
  · exact hfold _ h

/-- Claim C8 (amended): During UTM validation with non-empty `requiredParams`,
for each non-`mailto:`/`tel:`/`#` link: missing required UTM keys produce a
warning only — indeed EVERY issue produced by UTM validation is a
value-mismatch message; and a present UTM parameter whose value is
NON-EMPTY and differs from the declared `expectedValues` entry produces an
issue.  (A parameter present with an empty-string value is not flagged,
because the source tests `if actual_value and ...` — see
`C8_counterexample`.) -/
theorem C8_utm_warning_vs_issue (links : List VLink) (req : UtmReqs)
    (hrp : req.required_params ≠ []) :
    (∀ l ∈ links, utmSkip l.url = false →
        (missingParamsOf req.required_params l).isEmpty = false →
        missingWarningStr l (missingParamsOf req.required_params l) ∈
          (validateUtmParams links req).warnings) ∧
    (∀ l ∈ links, utmSkip l.url = false →
        ∀ p exp act, (p, exp) ∈ req.expected_values →
          lookupAssoc l.utm_params ("utm_".toList ++ p) = some act →
          act ≠ [] → act ≠ exp →
          utmMismatchStr l p exp act ∈ (validateUtmParams links req).issues) ∧
    (∀ e ∈ (validateUtmParams links req).issues,
        ∃ rest, e = "UTM param mismatch on ".toList ++ rest) := by
  have hrp' : req.required_params.isEmpty = false := by
    cases h : req.required_params with
    | nil => exact absurd h hrp
    | cons a as => rfl
  refine ⟨?_, ?_, ?_⟩
  · intro l hl hskip hmiss
    exact foldl_proj_mem_of_elem
      (utmLinkStep req.required_params req.expected_values) (fun a => a.warnings)
      (fun a b => utmLinkStep_warnings_mono req.required_params req.expected_values a b)
      links l hl _
      (fun acc => utmLinkStep_missing_warning req.required_params req.expected_values
        acc l hskip hrp' hmiss) {}
  · intro l hl hskip p exp act hpe hlook hne1 hne2
    exact foldl_proj_mem_of_elem
      (utmLinkStep req.required_params req.expected_values) (fun a => a.issues)
      (fun a b => utmLinkStep_issues_mono req.required_params req.expected_values a b)
      links l hl _
      (fun acc => utmLinkStep_mismatch_issue req.required_params req.expected_values
        acc l p exp act hskip hrp' hpe hlook hne1 hne2) {}
  · exact foldl_inv (utmLinkStep req.required_params req.expected_values)
      (fun a => ∀ e ∈ a.issues, ∃ rest, e = "UTM param mismatch on ".toList ++ rest)
      (fun a b ha => utmLinkStep_issue_shape req.required_params req.expected_values a b ha)
      links {} (fun e he => absurd he (List.not_mem_nil e))

/-- Concrete link for the C8 instances: one UTM key present with a wrong
value, one required key missing. -/
def c8link : VLink :=
  ⟨"https://x.com".toList, "T".toList, [("utm_source".toList, "bad".toList)]⟩

/-- Concrete requirements for the C8 instances. -/
def c8req : UtmReqs :=
  ⟨["source".toList, "medium".toList], [("source".toList, "x".toList)]⟩

/-- Witness for `C8_utm_warning_vs_issue` at the concrete link: the missing
`medium` key yields the warning, the wrong `source` value yields the issue. -/
theorem C8_utm_warning_vs_issue_witness :
    missingWarningStr c8link (missingParamsOf c8req.required_params c8link) ∈
        (validateUtmParams [c8link] c8req).warnings ∧
      utmMismatchStr c8link "source".toList "x".toList "bad".toList ∈
        (validateUtmParams [c8link] c8req).issues :=
  ⟨(C8_utm_warning_vs_issue [c8link] c8req (by decide)).1 c8link
      (List.mem_singleton.mpr rfl) (by decide) (by decide),
    (C8_utm_warning_vs_issue [c8link] c8req (by decide)).2.1 c8link
      (List.mem_singleton.mpr rfl) (by decide) "source".toList "x".toList "bad".toList
      (by decide) (by decide) (by decide) (by decide)⟩

/-- Claim C8 (counterexample): A link whose `utm_source` parameter is present
with the EMPTY value, validated against expected value `"x"`: the value is
present and differs, but the Python truthiness guard `if actual_value and
...` suppresses the issue — the result has no issues (and no warnings, the
key being present). -/
theorem C8_counterexample :
    (validateUtmParams
        [⟨"https://x.com".toList, "T".toList, [("utm_source".toList, [])]⟩]
        ⟨["source".toList], [("source".toList, "x".toList)]⟩).issues = [] ∧
      (validateUtmParams
        [⟨"https://x.com".toList, "T".toList, [("utm_source".toList, [])]⟩]
        ⟨["source".toList], [("source".toList, "x".toList)]⟩).warnings = [] ∧
      lookupAssoc [("utm_source".toList, ([] : Text))] "utm_source".toList = some [] ∧
      ([] : Text) ≠ "x".toList := by
  exact ⟨rfl, rfl, rfl, by decide⟩

/-- Claim C9 (confirmed): Scenario C: the anchor `tel:+17706370441` with text
`Call`, validated against required phone `770-637-0441`, yields an empty
phone-validation issues list; stripping non-digits and dropping the leading
`1` of the 11-digit number makes the two numbers equal. -/
theorem C9_phone_scenario :
    (validatePhoneNumbers [⟨"tel:+17706370441".toList, "Call".toList, []⟩]
        "770-637-0441".toList).issues = [] ∧
      normalizePhone (pyReplace "tel:".toList [] "tel:+17706370441".toList) =
        normalizePhone "770-637-0441".toList := by
  exact ⟨rfl, rfl⟩

end EmailQA
